import Mathlib

/-!
Shallow embedding of the directional focus-navigation core of py_curses_tui:
`Drawable.distance`, `KeyCaptureDrawable`/`Submenu`/`Menu` navigation state and
the capture-handoff operations, translated from
`src/py_curses_tui/drawables/base_classes.py`, `src/py_curses_tui/core.py` and
`src/py_curses_tui/utility.py`.

Conventions of the embedding:
* Python `int` is `ℤ`; points are `(row, column)` pairs.
* A Python function that can raise is modelled with `Option` (`none` = an
  exception escapes); where the state mutated before the raise matters
  (`Menu.add_key_capture_drawable`), `Except` carries the mutated state.
* Leaf widgets (the widget catalog, spec §3 "Focusable Widget") are abstracted
  to their hitbox plus a `focused` flag: their installed `capture_take` /
  `capture_remove` callbacks mark / clear the flag.
-/

set_option linter.unusedVariables false

abbrev Point := ℤ × ℤ

/-- `MAX_DELTA` from `utility.py` (line 20). -/
def MAX_DELTA : ℤ := 256

/-- Resolve a Python list index: negative indices count from the end of the
list; `none` models `IndexError`. -/
def pyIdx (len : ℕ) (i : ℤ) : Option ℕ :=
  let j := if i < 0 then (len : ℤ) + i else i
  if 0 ≤ j ∧ j < (len : ℤ) then some j.toNat else none

/-- Python `range(a, b + 1)` as a list of integers. -/
def intRange (a b : ℤ) : List ℤ :=
  (List.range (b + 1 - a).toNat).map (fun i : ℕ => a + (i : ℤ))

/-- Sequence a list of fallible values; `none` models an exception escaping
from the evaluation of any element. -/
def seqOpt : List (Option ℤ) → Option (List ℤ)
  | [] => some []
  | o :: os => do
      let v ← o
      let vs ← seqOpt os
      some (v :: vs)

/-- Python `min()` over fallible values; `none` for an empty sequence
(`ValueError`) or a raising element. -/
def pyMin (l : List (Option ℤ)) : Option ℤ := do
  let vs ← seqOpt l
  match vs with
  | [] => none
  | v :: rest => some (rest.foldl min v)

/-- Accumulator loop of Python `min(range(n), key=f)`: the best index is
replaced only by a strictly smaller key, so the first index attaining the
minimum wins. -/
def pyMinIdxAux : List ℤ → ℕ → ℤ → ℕ → ℕ
  | [], bi, _, _ => bi
  | k :: ks, bi, bv, i =>
      if k < bv then pyMinIdxAux ks i k (i + 1) else pyMinIdxAux ks bi bv (i + 1)

/-- Python `min(range(len keys), key=fun i => keys[i])`; `none` on the empty
list (`ValueError`). -/
def pyMinIdx (keys : List ℤ) : Option ℕ :=
  match keys with
  | [] => none
  | k :: ks => some (pyMinIdxAux ks 0 k 1)

/-- Python `min(range(n), key=f)` where evaluating a key may raise. -/
def pyArgmin (keys : List (Option ℤ)) : Option ℕ := do
  let ks ← seqOpt keys
  pyMinIdx ks

/-- `Hitbox` from `base_classes.py` (lines 283-313): an axis-aligned rectangle
given by inclusive top-left and bottom-right `(row, column)` corners. -/
structure Hitbox where
  tl : Point := (0, 0)
  br : Point := (0, 0)
  deriving DecidableEq, Repr

/-- `Hitbox.get_tr`. -/
def Hitbox.get_tr (h : Hitbox) : Point := (h.tl.1, h.br.2)

/-- `Hitbox.get_bl`. -/
def Hitbox.get_bl (h : Hitbox) : Point := (h.br.1, h.tl.2)

/-- `Hitbox.is_inside` with the default `offset=(0,0)` used by the
navigation code. -/
def Hitbox.is_inside (h : Hitbox) (p : Point) : Prop :=
  h.tl.1 ≤ p.1 ∧ p.1 ≤ h.br.1 ∧ h.tl.2 ≤ p.2 ∧ p.2 ≤ h.br.2

instance (h : Hitbox) (p : Point) : Decidable (h.is_inside p) := by
  unfold Hitbox.is_inside; infer_instance

/-- `Drawable.distance` from `base_classes.py` (lines 588-703).
`none` models the `ValueError` raised for a direction outside {0,1,2,3};
note the source tests `origin == p` before validating the direction. -/
def Drawable.distance (origin p : Point) (direction : ℤ) : Option ℤ :=
  let y1 := origin.1
  let x1 := origin.2
  let y2 := p.1
  let x2 := p.2
  let dx := x2 - x1
  let dy := y2 - y1
  if x1 = x2 ∧ y1 = y2 then some (MAX_DELTA * MAX_DELTA)
  else if direction = 0 then
    if dy > 0 ∧ dx ≥ 0 then  -- zone 1 bot right
      some (dy + dx * (MAX_DELTA - y1 - 1))
    else if dy > 0 ∧ dx < 0 then  -- zone 2 bot left
      some (MAX_DELTA * MAX_DELTA
        + (MAX_DELTA - y1 - 1) * (MAX_DELTA - x1) + (dy - 1) * x1 + x2 + 1)
    else if dy ≤ 0 ∧ dx > 0 then  -- zone 3 top right
      some (2 * (MAX_DELTA * MAX_DELTA)
        + (MAX_DELTA - y1 - 1) * MAX_DELTA + (dx - 1) * (y1 + 1) + y2 + 1)
    else  -- zone 4 top left
      some (3 * (MAX_DELTA * MAX_DELTA)
        + (MAX_DELTA - y1 - 1) * MAX_DELTA
        + (y1 + 1) * (MAX_DELTA - x1 - 1) + x2 * (y1 + 1) + y2 + 1)
  else if direction = 1 then
    if dx > 0 ∧ dy = 0 then  -- zone 1 right
      some dx
    else if dx > 0 ∧ dy < 0 then  -- zone 2 top right
      some (MAX_DELTA * MAX_DELTA + (y1 - y2) + (dx - 1) * y1)
    else if dx > 0 ∧ dy > 0 then  -- zone 3 bot right
      some (2 * (MAX_DELTA * MAX_DELTA) + dy + (dx - 1) * (MAX_DELTA - y1 - 1))
    else if dx = 0 ∧ dy > 0 then  -- zone 4 just below origin
      some (3 * (MAX_DELTA * MAX_DELTA) + dy)
    else  -- zone 5 top left
      some (4 * (MAX_DELTA * MAX_DELTA) + y2 + x2 * MAX_DELTA)
  else if direction = 2 then
    if dy < 0 ∧ dx ≤ 0 then  -- zone 1 top left
      some (y1 * (x1 - x2) + y1 - y2)
    else if dy < 0 ∧ dx > 0 then  -- zone 2 top right
      some (MAX_DELTA * MAX_DELTA + y1 * (x1 + 1) + (dx - 1) * y1 + y1 - y2)
    else if dy = 0 ∧ dx < 0 then  -- zone 3 just left of origin
      some (2 * (MAX_DELTA * MAX_DELTA) + y1 * MAX_DELTA + (x1 - x2))
    else if dy > 0 ∧ dx < 0 then  -- zone 3bis bottom left
      some (2 * (MAX_DELTA * MAX_DELTA) + y1 * MAX_DELTA + x1
        + x1 * (MAX_DELTA - y2 - 1) + x1 - x2)
    else  -- zone 4 bottom right
      some (3 * (MAX_DELTA * MAX_DELTA) + y1 * MAX_DELTA + (MAX_DELTA - y1) * x1
        + (MAX_DELTA - x1) * (MAX_DELTA - y2 - 1) + MAX_DELTA - x2)
  else if direction = 3 then
    if dx < 0 ∧ dy = 0 then  -- zone 1 left
      some (x1 - x2)
    else if dx < 0 ∧ dy < 0 then  -- zone 2 top left
      some (MAX_DELTA * MAX_DELTA + (y1 - y2) + y1 * (x1 - x2 - 1))
    else if dx < 0 ∧ dy > 0 then  -- zone 3 bot left
      some (2 * (MAX_DELTA * MAX_DELTA) + (MAX_DELTA - y2 - 1)
        + (x1 - x2 - 1) * (MAX_DELTA - y1 - 1))
    else if dx = 0 ∧ dy < 0 then  -- zone 4 just below
      some (3 * (MAX_DELTA * MAX_DELTA) + y1 - y2)
    else  -- zone 5 top right
      some (4 * (MAX_DELTA * MAX_DELTA) + y2 + (MAX_DELTA - x1 - 1) * MAX_DELTA)
  else none

/-- The angular-zone index of a candidate: the multiplier of `MAX_DELTA²` in
the `sup` ("supplement value to get in which zone we are") of the branch of
`Drawable.distance` that the pair of points falls in.  Branch structure copied
from the source; `none` for `origin = p` or an invalid direction.  For
direction 2 the source gives the "just left" and "bottom left" branches the
same supplement `2 * MAX_DELTA * MAX_DELTA`, hence the same zone index. -/
def Drawable.zone (origin p : Point) (direction : ℤ) : Option ℕ :=
  let y1 := origin.1
  let x1 := origin.2
  let y2 := p.1
  let x2 := p.2
  let dx := x2 - x1
  let dy := y2 - y1
  if x1 = x2 ∧ y1 = y2 then none
  else if direction = 0 then
    if dy > 0 ∧ dx ≥ 0 then some 0
    else if dy > 0 ∧ dx < 0 then some 1
    else if dy ≤ 0 ∧ dx > 0 then some 2
    else some 3
  else if direction = 1 then
    if dx > 0 ∧ dy = 0 then some 0
    else if dx > 0 ∧ dy < 0 then some 1
    else if dx > 0 ∧ dy > 0 then some 2
    else if dx = 0 ∧ dy > 0 then some 3
    else some 4
  else if direction = 2 then
    if dy < 0 ∧ dx ≤ 0 then some 0
    else if dy < 0 ∧ dx > 0 then some 1
    else if dy = 0 ∧ dx < 0 then some 2
    else if dy > 0 ∧ dx < 0 then some 2
    else some 3
  else if direction = 3 then
    if dx < 0 ∧ dy = 0 then some 0
    else if dx < 0 ∧ dy < 0 then some 1
    else if dx < 0 ∧ dy > 0 then some 2
    else if dx = 0 ∧ dy < 0 then some 3
    else some 4
  else none

/-- Both coordinates of a point lie in `[0, MAX_DELTA)` (the intended screen
coordinate range: `MAX_DELTA` "should be higher than maximum of number of
lines and columns"). -/
def inRange (p : Point) : Prop :=
  0 ≤ p.1 ∧ p.1 < MAX_DELTA ∧ 0 ≤ p.2 ∧ p.2 < MAX_DELTA

instance (p : Point) : Decidable (inRange p) := by
  unfold inRange; infer_instance

/-- A key-capturing leaf widget, abstracted to its hitbox and whether it
currently holds focus (spec §3 "Focusable Widget" contract). -/
structure KeyCaptureDrawable where
  hitbox : Hitbox
  focused : Bool := false
  deriving DecidableEq, Repr

/-- The widget-catalog `capture_take(origin, direction)` callback, abstracted:
the widget initializes its cursor and now holds focus. -/
def KeyCaptureDrawable.capture_take (k : KeyCaptureDrawable) (origin : Point)
    (direction : ℤ) : KeyCaptureDrawable :=
  { k with focused := true }

/-- The widget-catalog `capture_remove(direction)` callback, abstracted:
the widget clears its highlight state and no longer holds focus. -/
def KeyCaptureDrawable.capture_remove (k : KeyCaptureDrawable)
    (direction : ℤ) : KeyCaptureDrawable :=
  { k with focused := false }

/-- `KeyCaptureDrawable.distance_from` (`base_classes.py` lines 769-783):
a big sentinel if the point is inside the hitbox, else the minimum
`Drawable.distance` to the four corners. -/
def KeyCaptureDrawable.distance_from (k : KeyCaptureDrawable) (p : Point)
    (direction : ℤ) : Option ℤ :=
  let hitbox := k.hitbox
  if hitbox.is_inside p then some (MAX_DELTA * MAX_DELTA * MAX_DELTA)
  else do
    let dist_tl ← Drawable.distance p hitbox.tl direction
    let dist_tr ← Drawable.distance p hitbox.get_tr direction
    let dist_br ← Drawable.distance p hitbox.br direction
    let dist_bl ← Drawable.distance p hitbox.get_bl direction
    some (min (min dist_tl dist_tr) (min dist_br dist_bl))

/-- `Submenu` state (`base_classes.py` lines 806-821): cached bounding-box
corners, member widgets, and the selected member index (`-1` = none). -/
structure Submenu where
  tl : Point := (-1, -1)
  br : Point := (-1, -1)
  kcds : List KeyCaptureDrawable := []
  selected : ℤ := 0
  deriving DecidableEq, Repr

/-- Loop body of `Submenu.activate`: `capture_take((0,0), 0)` on the member at
`index`, `capture_remove(0)` on every other member. -/
def activateKcds : List KeyCaptureDrawable → ℤ → ℕ → List KeyCaptureDrawable
  | [], _, _ => []
  | k :: ks, index, i =>
      (if (i : ℤ) = index then k.capture_take (0, 0) 0 else k.capture_remove 0)
        :: activateKcds ks index (i + 1)

/-- `Submenu.activate` (lines 941-948). -/
def Submenu.activate (s : Submenu) (index : ℤ) : Submenu :=
  { s with selected := index, kcds := activateKcds s.kcds index 0 }

/-- `Submenu.add` (lines 950-969): append the widget and grow the cached
bounding box (the `(-1, -1)` top-left sentinel marks a never-filled box). -/
def Submenu.add (s : Submenu) (kcd : KeyCaptureDrawable) : Submenu :=
  let kcd_tl := kcd.hitbox.tl
  let kcd_br := kcd.hitbox.br
  let tl1 := if s.tl = ((-1 : ℤ), (-1 : ℤ)) then kcd_tl else s.tl
  let br1 := if s.tl = ((-1 : ℤ), (-1 : ℤ)) then kcd_br else s.br
  let tl2 := if kcd_tl.1 < tl1.1 then (kcd_tl.1, tl1.2) else tl1
  let tl3 := if kcd_tl.2 < tl2.2 then (tl2.1, kcd_tl.2) else tl2
  let br2 := if kcd_br.1 > br1.1 then (kcd_br.1, br1.2) else br1
  let br3 := if kcd_br.2 > br2.2 then (br2.1, kcd_br.2) else br2
  { s with kcds := s.kcds ++ [kcd], tl := tl3, br := br3 }

/-- `Submenu.get_hitbox` (lines 979-983). -/
def Submenu.get_hitbox (s : Submenu) : Hitbox := ⟨s.tl, s.br⟩

/-- `Submenu.is_inside` (lines 1003-1006). -/
def Submenu.is_inside (s : Submenu) (p : Point) : Prop :=
  s.get_hitbox.is_inside p

instance (s : Submenu) (p : Point) : Decidable (s.is_inside p) := by
  unfold Submenu.is_inside; infer_instance

/-- `Submenu.distance_from` (lines 1008-1032): the inside sentinel
`4 * MAX_DELTA * MAX_DELTA`, or the minimum `Drawable.distance` to the
per-cell sampled perimeter of the bounding hitbox. -/
def Submenu.distance_from (s : Submenu) (p : Point) (direction : ℤ) :
    Option ℤ :=
  if s.is_inside p then some (4 * (MAX_DELTA * MAX_DELTA))
  else
    let hitbox := s.get_hitbox
    let tl := hitbox.tl
    let br := hitbox.br
    let tr := hitbox.get_tr
    let bl := hitbox.get_bl
    do
      let dist_top ← pyMin ((intRange tl.2 tr.2).map
        (fun i => Drawable.distance p (tl.1, i) direction))
      let dist_bottom ← pyMin ((intRange bl.2 br.2).map
        (fun i => Drawable.distance p (br.1, i) direction))
      let dist_left ← pyMin ((intRange tl.1 bl.1).map
        (fun i => Drawable.distance p (i, tl.2) direction))
      let dist_right ← pyMin ((intRange tr.1 br.1).map
        (fun i => Drawable.distance p (i, br.2) direction))
      some (min (min dist_top dist_bottom) (min dist_left dist_right))

/-- `Submenu._distance_first_point_to_point` (lines 1034-1055); `none` models
the `ValueError` for an invalid direction. -/
def Submenu.distance_first_point_to_point (origin p : Point) (direction : ℤ) :
    Option ℤ :=
  let dy := p.1 - origin.1
  let dx := p.2 - origin.2
  if direction = 0 then some (dy * MAX_DELTA + dx + 1)
  else if direction = 1 then some (dx * MAX_DELTA + dy + 1)
  else if direction = 2 then some (-dy * MAX_DELTA - dx + 1)
  else if direction = 3 then some (-dx * MAX_DELTA + dy + 1)
  else none

/-- `Submenu._distance_first_kcd` (lines 1057-1075). -/
def Submenu.distance_first_kcd (kcd : KeyCaptureDrawable) (origin : Point)
    (direction : ℤ) : Option ℤ :=
  let hitbox := kcd.hitbox
  if direction = 0 then
    Submenu.distance_first_point_to_point origin hitbox.tl direction
  else if direction = 1 then
    Submenu.distance_first_point_to_point origin hitbox.tl direction
  else if direction = 2 then
    Submenu.distance_first_point_to_point origin hitbox.br direction
  else if direction = 3 then
    Submenu.distance_first_point_to_point origin hitbox.get_tr direction
  else none

/-- `Submenu.find_first` (lines 1077-1083). -/
def Submenu.find_first (s : Submenu) (p : Point) (direction : ℤ) : Option ℕ :=
  pyArgmin (s.kcds.map (fun k => Submenu.distance_first_kcd k p direction))

/-- `Submenu._capture_take` (lines 1085-1088). -/
def Submenu.capture_take (s : Submenu) (origin : Point) (direction : ℤ) :
    Option Submenu := do
  let id_ ← s.find_first origin direction
  some (s.activate (id_ : ℤ))

/-- `Submenu._capture_remove` (lines 1090-1094): forwards the remove to the
member at Python index `self._selected` (negative indices wrap) and resets the
selection to `-1`; `none` models the `IndexError` on an empty list. -/
def Submenu.capture_remove (s : Submenu) (direction : ℤ) : Option Submenu := do
  let j ← pyIdx s.kcds.length s.selected
  let selected_kcd ← s.kcds[j]?
  some { s with kcds := s.kcds.set j (selected_kcd.capture_remove direction),
                selected := -1 }

/-- `Menu` navigation state (`core.py` lines 119-137). -/
structure Menu where
  submenus : List Submenu := []
  selected_submenu : ℕ := 0
  deriving DecidableEq, Repr

/-- Shared body of the four identical direction branches of
`Menu.handle_submenu_goto` (`core.py` lines 146-203): rank every submenu
(including the active one) by `Submenu.distance_from`, reject the handoff if
the active one wins, otherwise remove focus from the active submenu, switch
the active index and take focus in the winner. -/
def Menu.submenu_goto_branch (m : Menu) (current : Submenu) (origin : Point)
    (direction : ℤ) : Option (Menu × Bool) := do
  let mi ← pyArgmin (m.submenus.map (fun s => s.distance_from origin direction))
  if mi = m.selected_submenu then some (m, false)
  else do
    let cur ← (current.capture_remove direction)
    let subs1 := m.submenus.set m.selected_submenu cur
    let target ← subs1[mi]?
    let target1 ← target.capture_take origin direction
    some ({ m with submenus := subs1.set mi target1, selected_submenu := mi },
          true)

/-- `Menu.handle_submenu_goto` (`core.py` lines 139-203).  The source
dispatches on `direction` with four structurally identical `if`/`elif`
branches and NO final `else`: for a direction outside {0,1,2,3} the method
falls off the chain and returns Python `None` (falsy, no state change),
modelled here as `(m, false)`. -/
def Menu.handle_submenu_goto (m : Menu) (origin : Point) (direction : ℤ) :
    Option (Menu × Bool) := do
  let current ← m.submenus[m.selected_submenu]?
  if direction = 0 then m.submenu_goto_branch current origin 0
  else if direction = 1 then m.submenu_goto_branch current origin 1
  else if direction = 2 then m.submenu_goto_branch current origin 2
  else if direction = 3 then m.submenu_goto_branch current origin 3
  else some (m, false)

/-- Local-reassignment step of `Submenu.handle_kcd_goto` (the "select it
directly" branches): `capture_remove` on the current member, set the selection
to the winner `mi`, `capture_take` on it. -/
def Submenu.kcd_goto_local (m : Menu) (n : ℕ) (s : Submenu) (selIdx mi : ℕ)
    (cur : KeyCaptureDrawable) (origin : Point) (direction : ℤ) :
    Option Menu :=
  let kcds1 := s.kcds.set selIdx (cur.capture_remove direction)
  do
    let t ← kcds1[mi]?
    let s1 : Submenu :=
      { s with selected := (mi : ℤ),
               kcds := kcds1.set mi (t.capture_take origin direction) }
    some { m with submenus := m.submenus.set n s1 }

/-- Escalation step of `Submenu.handle_kcd_goto`: `capture_remove` on the
current member, then ask the owning `Menu` (the installed `capture_goto`) to
hand off; on failure fall back to the local reassignment of the winner `mi`. -/
def Submenu.kcd_goto_escalate (m : Menu) (n : ℕ) (s : Submenu) (selIdx mi : ℕ)
    (cur : KeyCaptureDrawable) (origin : Point) (direction : ℤ) :
    Option Menu :=
  let kcds1 := s.kcds.set selIdx (cur.capture_remove direction)
  let m1 := { m with submenus := m.submenus.set n { s with kcds := kcds1 } }
  do
    let r ← Menu.handle_submenu_goto m1 origin direction
    if r.2 then some r.1
    else do
      let s2 ← r.1.submenus[n]?
      let t ← s2.kcds[mi]?
      let s3 : Submenu :=
        { s2 with selected := (mi : ℤ),
                  kcds := s2.kcds.set mi (t.capture_take origin direction) }
      some { r.1 with submenus := r.1.submenus.set n s3 }

/-- `Submenu.handle_kcd_goto` (`base_classes.py` lines 841-917), invoked
through the installed wiring: the submenu the member widget escalates to is
the menu's selected submenu, and its `capture_goto` is the menu's
`handle_submenu_goto`.  `none` models the `ValueError` when no member is
selected and any exception escaping the distance computations.  The source
recomputes `self._kcds[m].distance_from(origin, direction)` for the winner;
the value is the same.  For a direction outside {0,1,2,3} the `if`/`elif`
chain falls through and the method returns with no state change. -/
def Submenu.handle_kcd_goto (m : Menu) (origin : Point) (direction : ℤ) :
    Option Menu := do
  let n := m.selected_submenu
  let s ← m.submenus[n]?
  if s.selected = -1 then none
  else do
    let selIdx ← pyIdx s.kcds.length s.selected
    let cur ← s.kcds[selIdx]?
    let mi ← pyArgmin (s.kcds.map (fun k => k.distance_from origin direction))
    let mkcd ← s.kcds[mi]?
    let dist ← mkcd.distance_from origin direction
    if direction = 0 then
      if dist < MAX_DELTA * MAX_DELTA ∨ dist < 2 * (MAX_DELTA * MAX_DELTA) then
        Submenu.kcd_goto_local m n s selIdx mi cur origin 0
      else
        Submenu.kcd_goto_escalate m n s selIdx mi cur origin 0
    else if direction = 1 then
      if dist < MAX_DELTA * MAX_DELTA ∨ dist < 2 * (MAX_DELTA * MAX_DELTA)
          ∨ dist < 3 * (MAX_DELTA * MAX_DELTA)
          ∨ dist < 4 * (MAX_DELTA * MAX_DELTA) then
        Submenu.kcd_goto_local m n s selIdx mi cur origin 1
      else
        Submenu.kcd_goto_escalate m n s selIdx mi cur origin 1
    else if direction = 2 then
      if dist < MAX_DELTA * MAX_DELTA ∨ dist < 2 * (MAX_DELTA * MAX_DELTA) then
        Submenu.kcd_goto_local m n s selIdx mi cur origin 2
      else
        Submenu.kcd_goto_escalate m n s selIdx mi cur origin 2
    else if direction = 3 then
      if dist < MAX_DELTA * MAX_DELTA ∨ dist < 2 * (MAX_DELTA * MAX_DELTA)
          ∨ dist < 3 * (MAX_DELTA * MAX_DELTA)
          ∨ dist < 4 * (MAX_DELTA * MAX_DELTA) then
        Submenu.kcd_goto_local m n s selIdx mi cur origin 3
      else
        Submenu.kcd_goto_escalate m n s selIdx mi cur origin 3
    else some m

/-- `Menu.add_key_capture_drawable` (`core.py` lines 205-246), restricted to
non-negative submenu indices.  On `IndexError` (index not yet existing) a new
`Submenu` is built, the widget added to it and the submenu APPENDED, and only
then is the out-of-range check made: the `ValueError` (`Except.error`) leaves
the menu with the freshly appended submenu. -/
def Menu.add_key_capture_drawable (m : Menu) (kcd : KeyCaptureDrawable)
    (submenu : ℕ) : Except Menu Menu :=
  match m.submenus[submenu]? with
  | some s =>
      Except.ok { m with submenus := m.submenus.set submenu (s.add kcd) }
  | none =>
      let new_submenu : Submenu := {}
      let new_submenu := new_submenu.add kcd
      let m1 := { m with submenus := m.submenus ++ [new_submenu] }
      if (submenu : ℤ) > (m1.submenus.length : ℤ) - 1 then Except.error m1
      else Except.ok m1

/-- Iterated arrow-key navigation: one `Submenu.handle_kcd_goto` per
`(origin, direction)` pair. -/
def nav_steps (m : Menu) : List (Point × ℤ) → Option Menu
  | [] => some m
  | (o, d) :: rest => do
      let m1 ← Submenu.handle_kcd_goto m o d
      nav_steps m1 rest


/-- Spec-side description of the Container-level handoff (spec §4.3
`handle_group_goto`): rank ALL Groups (including the active one) by
`Submenu.distance_from`; if the active Group wins, reject the handoff with no
state change; otherwise remove focus from the active Group, switch the
active-Group index, take focus in the winner (which delegates to
`find_first`-based entry) and report success. -/
def Menu.handoff_spec (m : Menu) (origin : Point) (direction : ℤ) :
    Option (Menu × Bool) := do
  let mi ← pyArgmin (m.submenus.map (fun s => s.distance_from origin direction))
  if mi = m.selected_submenu then some (m, false)
  else do
    let cur ← m.submenus[m.selected_submenu]?
    let cur1 ← cur.capture_remove direction
    let target ← m.submenus[mi]?
    let target1 ← target.capture_take origin direction
    some ({ m with
            submenus := (m.submenus.set m.selected_submenu cur1).set mi target1,
            selected_submenu := mi }, true)

/-- Structural well-formedness of a Group: at least one member and a
non-degenerate cached bounding box (both hold for every Group built through
`Menu.add_key_capture_drawable` / `Submenu.add`). -/
def SubWF (s : Submenu) : Prop :=
  s.kcds ≠ [] ∧ s.tl.1 ≤ s.br.1 ∧ s.tl.2 ≤ s.br.2

instance (s : Submenu) : Decidable (SubWF s) := by
  unfold SubWF; infer_instance

/-- The focused-state invariant of a Container (spec §8 "No-focus-loss"):
the active-Group index is in range, every Group is well formed, the active
Group has a member selected (index in range) and every other Group has
selection `-1`. -/
def MenuInv (m : Menu) : Prop :=
  m.selected_submenu < m.submenus.length ∧
  (∀ i, ∀ hi : i < m.submenus.length, SubWF (m.submenus.get ⟨i, hi⟩)) ∧
  (∀ i, ∀ hi : i < m.submenus.length,
    if i = m.selected_submenu then
      0 ≤ (m.submenus.get ⟨i, hi⟩).selected ∧
        (m.submenus.get ⟨i, hi⟩).selected <
          ((m.submenus.get ⟨i, hi⟩).kcds.length : ℤ)
    else (m.submenus.get ⟨i, hi⟩).selected = -1)

instance (m : Menu) : Decidable (MenuInv m) := by
  unfold MenuInv; infer_instance

/-! Concrete states used by witnesses and counterexamples: the two-Group
layout of spec §8 (Group A's widget spans `(0,0)-(0,9)`, Group B's widget
spans `(0,20)-(0,29)`), with focus initially on Group A's widget. -/

/-- Group A's widget, at `(0,0)-(0,9)`, currently focused. -/
def widgetA : KeyCaptureDrawable := { hitbox := ⟨(0, 0), (0, 9)⟩, focused := true }

/-- Group B's widget, at `(0,20)-(0,29)`. -/
def widgetB : KeyCaptureDrawable := { hitbox := ⟨(0, 20), (0, 29)⟩ }

/-- Group A with its single widget selected. -/
def groupA : Submenu := { tl := (0, 0), br := (0, 9), kcds := [widgetA], selected := 0 }

/-- Group B, deactivated. -/
def groupB : Submenu := { tl := (0, 20), br := (0, 29), kcds := [widgetB], selected := -1 }

/-- The two-Group Container with focus on Group A's widget. -/
def menuAB : Menu := { submenus := [groupA, groupB], selected_submenu := 0 }

/-- A Container with no Groups at all. -/
def menuEmpty : Menu := { submenus := [], selected_submenu := 0 }

/-- The state `menuEmpty` is left in by `add_key_capture_drawable` with an
out-of-range index: one freshly created Group was appended before the raise. -/
def menuAfterBadAdd : Menu :=
  { submenus := [({} : Submenu).add widgetA], selected_submenu := 0 }

/-- A two-member Group with no member selected. -/
def groupC : Submenu :=
  { tl := (0, 0), br := (0, 29), kcds := [widgetA, widgetB], selected := -1 }

/-- A Container whose single Group has no member selected. -/
def menuDeselected : Menu := { submenus := [groupB], selected_submenu := 0 }

/-- A Group that holds no widgets (reachable through `Submenu.clear()` or by
installing a fresh `Submenu` via `Menu.set_submenu`): its cached bounding box
is the never-filled `(-1,-1)` sentinel and nothing is selected. -/
def groupEmpty : Submenu := { selected := -1 }

/-- A Container holding one widget (focused, in Group A) plus an empty,
deactivated Group. -/
def menuWithEmptyGroup : Menu :=
  { submenus := [groupA, groupEmpty], selected_submenu := 0 }

/-! ### Infrastructure lemmas: sequencing and Python argmin -/

theorem seqOpt_map_some (vals : List ℤ) : seqOpt (vals.map some) = some vals := by
  induction vals with
  | nil => rfl
  | cons v vs ih => simp [seqOpt, ih]

theorem exists_vals_of_isSome (keys : List (Option ℤ))
    (h : ∀ o ∈ keys, o.isSome) : ∃ vals : List ℤ, keys = vals.map some := by
  induction keys with
  | nil => exact ⟨[], rfl⟩
  | cons o os ih =>
      obtain ⟨vals, hv⟩ := ih (fun o ho => h o (List.mem_cons_of_mem _ ho))
      obtain ⟨v, hv0⟩ := Option.isSome_iff_exists.mp (h o (List.mem_cons_self _ _))
      exact ⟨v :: vals, by simp [hv0, hv]⟩

/-- The returned index is in range, attains the minimum, and is the first
index doing so. -/
def IsLeastArgmin (keys : List ℤ) (j : ℕ) : Prop :=
  j < keys.length ∧
    (∀ u, u < keys.length → keys.getD j 0 ≤ keys.getD u 0) ∧
    (∀ u, u < j → keys.getD j 0 < keys.getD u 0)

theorem pyMinIdxAux_spec (ks : List ℤ) : ∀ bi bv i,
    (pyMinIdxAux ks bi bv i = bi ∧ ∀ t, t < ks.length → bv ≤ ks.getD t 0) ∨
    (∃ t, t < ks.length ∧ pyMinIdxAux ks bi bv i = i + t ∧
      ks.getD t 0 < bv ∧
      (∀ u, u < ks.length → ks.getD t 0 ≤ ks.getD u 0) ∧
      (∀ u, u < t → ks.getD t 0 < ks.getD u 0)) := by
  induction ks with
  | nil =>
      intro bi bv i
      left
      exact ⟨rfl, fun t ht => absurd ht (by simp)⟩
  | cons k ks ih =>
      intro bi bv i
      by_cases hk : k < bv
      · right
        rcases ih i k (i + 1) with ⟨heq, hall⟩ | ⟨t, ht, heq, hlt, hmin, hstrict⟩
        · refine ⟨0, by simp, ?_, ?_, ?_, ?_⟩
          · simpa [pyMinIdxAux, hk] using heq
          · simpa using hk
          · intro u hu
            match u with
            | 0 => simp
            | u + 1 =>
                simp only [List.getD_cons_zero, List.getD_cons_succ]
                exact hall u (by simpa using hu)
          · intro u hu; omega
        · refine ⟨t + 1, by simpa using ht, ?_, ?_, ?_, ?_⟩
          · simp only [pyMinIdxAux, if_pos hk]
            rw [heq]
            omega
          · simpa [List.getD_cons_succ] using lt_trans hlt hk
          · intro u hu
            match u with
            | 0 =>
                simp only [List.getD_cons_succ, List.getD_cons_zero]
                exact le_of_lt hlt
            | u + 1 =>
                simp only [List.getD_cons_succ]
                exact hmin u (by simpa using hu)
          · intro u hu
            match u with
            | 0 =>
                simp only [List.getD_cons_succ, List.getD_cons_zero]
                exact hlt
            | u + 1 =>
                simp only [List.getD_cons_succ]
                exact hstrict u (by omega)
      · rcases ih bi bv (i + 1) with ⟨heq, hall⟩ | ⟨t, ht, heq, hlt, hmin, hstrict⟩
        · left
          refine ⟨by simpa [pyMinIdxAux, hk] using heq, ?_⟩
          intro t ht
          match t with
          | 0 => simpa using le_of_not_lt hk
          | t + 1 =>
              simp only [List.getD_cons_succ]
              exact hall t (by simpa using ht)
        · right
          refine ⟨t + 1, by simpa using ht, ?_, ?_, ?_, ?_⟩
          · simp only [pyMinIdxAux, if_neg hk]
            rw [heq]
            omega
          · simpa [List.getD_cons_succ] using hlt
          · intro u hu
            match u with
            | 0 =>
                simp only [List.getD_cons_succ, List.getD_cons_zero]
                exact le_of_lt (lt_of_lt_of_le hlt (le_of_not_lt hk))
            | u + 1 =>
                simp only [List.getD_cons_succ]
                exact hmin u (by simpa using hu)
          · intro u hu
            match u with
            | 0 =>
                simp only [List.getD_cons_succ, List.getD_cons_zero]
                exact lt_of_lt_of_le hlt (le_of_not_lt hk)
            | u + 1 =>
                simp only [List.getD_cons_succ]
                exact hstrict u (by omega)

theorem pyMinIdx_spec (keys : List ℤ) (h : keys ≠ []) :
    ∃ j, pyMinIdx keys = some j ∧ IsLeastArgmin keys j := by
  match keys with
  | [] => exact absurd rfl h
  | k :: ks =>
      rcases pyMinIdxAux_spec ks 0 k 1 with ⟨heq, hall⟩ | ⟨t, ht, heq, hlt, hmin, hstrict⟩
      · refine ⟨0, by simp [pyMinIdx, heq], by simp, ?_, ?_⟩
        · intro u hu
          match u with
          | 0 => simp
          | u + 1 =>
              simp only [List.getD_cons_zero, List.getD_cons_succ]
              exact hall u (by simpa using hu)
        · intro u hu; omega
      · refine ⟨t + 1, by simp [pyMinIdx, heq, Nat.add_comm], by simpa using ht, ?_, ?_⟩
        · intro u hu
          match u with
          | 0 =>
              simp only [List.getD_cons_succ, List.getD_cons_zero]
              exact le_of_lt hlt
          | u + 1 =>
              simp only [List.getD_cons_succ]
              exact hmin u (by simpa using hu)
        · intro u hu
          match u with
          | 0 =>
              simp only [List.getD_cons_succ, List.getD_cons_zero]
              exact hlt
          | u + 1 =>
              simp only [List.getD_cons_succ]
              exact hstrict u (by omega)

theorem pyArgmin_spec (keys : List (Option ℤ)) (hne : keys ≠ [])
    (hs : ∀ o ∈ keys, o.isSome) :
    ∃ vals j, keys = vals.map some ∧ pyArgmin keys = some j ∧
      IsLeastArgmin vals j := by
  obtain ⟨vals, hv⟩ := exists_vals_of_isSome keys hs
  have hvne : vals ≠ [] := by
    intro h0
    apply hne
    rw [hv, h0]
    rfl
  obtain ⟨j, hj, hla⟩ := pyMinIdx_spec vals hvne
  exact ⟨vals, j, hv, by simp [pyArgmin, hv, seqOpt_map_some, hj], hla⟩

/-- Range bound extracted from `pyArgmin_spec` when only the index matters. -/
theorem pyArgmin_lt (keys : List (Option ℤ)) (hne : keys ≠ [])
    (hs : ∀ o ∈ keys, o.isSome) :
    ∃ j, pyArgmin keys = some j ∧ j < keys.length := by
  obtain ⟨vals, j, hv, hj, hla⟩ := pyArgmin_spec keys hne hs
  exact ⟨j, hj, by rw [hv, List.length_map]; exact hla.1⟩

/-! ### Definedness of the distance computations for valid directions -/

/-- A direction value accepted by the navigation code. -/
def validDir (d : ℤ) : Prop := d = 0 ∨ d = 1 ∨ d = 2 ∨ d = 3

instance (d : ℤ) : Decidable (validDir d) := by
  unfold validDir; infer_instance


theorem distance_isSome (o p : Point) (d : ℤ) (hd : validDir d) :
    ∃ v, Drawable.distance o p d = some v := by
  unfold Drawable.distance
  dsimp only
  by_cases hop : o.2 = p.2 ∧ o.1 = p.1
  · rw [if_pos hop]
    exact ⟨_, rfl⟩
  · rw [if_neg hop]
    rcases hd with h | h | h | h <;> subst h <;> simp only [reduceIte] <;>
      split_ifs <;> exact ⟨_, rfl⟩

theorem kcd_distance_from_isSome (k : KeyCaptureDrawable) (p : Point) (d : ℤ)
    (hd : validDir d) : ∃ v, k.distance_from p d = some v := by
  unfold KeyCaptureDrawable.distance_from
  dsimp only
  split_ifs with h
  · exact ⟨_, rfl⟩
  · obtain ⟨v1, e1⟩ := distance_isSome p k.hitbox.tl d hd
    obtain ⟨v2, e2⟩ := distance_isSome p k.hitbox.get_tr d hd
    obtain ⟨v3, e3⟩ := distance_isSome p k.hitbox.br d hd
    obtain ⟨v4, e4⟩ := distance_isSome p k.hitbox.get_bl d hd
    exact ⟨_, by rw [e1, e2, e3, e4]; rfl⟩

theorem intRange_length (a b : ℤ) : (intRange a b).length = (b + 1 - a).toNat := by
  rw [intRange, List.length_map, List.length_range]

theorem intRange_ne_nil (a b : ℤ) (h : a ≤ b) : intRange a b ≠ [] := by
  intro h0
  have hl := intRange_length a b
  rw [h0] at hl
  simp at hl
  omega

theorem pyMin_isSome (l : List (Option ℤ)) (hne : l ≠ [])
    (hs : ∀ o ∈ l, o.isSome) : ∃ v, pyMin l = some v := by
  obtain ⟨vals, hv⟩ := exists_vals_of_isSome l hs
  have hvne : vals ≠ [] := by
    intro h0
    apply hne
    rw [hv, h0]
    rfl
  match vals, hvne with
  | v :: rest, _ =>
      refine ⟨rest.foldl min v, ?_⟩
      rw [hv]
      show (seqOpt ((v :: rest).map some)).bind _ = _
      rw [seqOpt_map_some]
      rfl

theorem submenu_distance_from_isSome (s : Submenu) (p : Point) (d : ℤ)
    (hd : validDir d) (h1 : s.tl.1 ≤ s.br.1) (h2 : s.tl.2 ≤ s.br.2) :
    ∃ v, s.distance_from p d = some v := by
  unfold Submenu.distance_from
  dsimp only
  split_ifs with h
  · exact ⟨_, rfl⟩
  · have key : ∀ (f : ℤ → Point) (a b : ℤ), a ≤ b →
        ∃ v, pyMin ((intRange a b).map
          (fun i => Drawable.distance p (f i) d)) = some v := by
      intro f a b hab
      apply pyMin_isSome
      · intro h0
        exact intRange_ne_nil a b hab (List.map_eq_nil_iff.mp h0)
      · intro o ho
        obtain ⟨i, _, hi⟩ := List.mem_map.mp ho
        obtain ⟨v, hv⟩ := distance_isSome p (f i) d hd
        rw [← hi, hv]
        rfl
    obtain ⟨v1, e1⟩ := key (fun i => (s.get_hitbox.tl.1, i))
      s.get_hitbox.tl.2 s.get_hitbox.get_tr.2 h2
    obtain ⟨v2, e2⟩ := key (fun i => (s.get_hitbox.br.1, i))
      s.get_hitbox.get_bl.2 s.get_hitbox.br.2 h2
    obtain ⟨v3, e3⟩ := key (fun i => (i, s.get_hitbox.tl.2))
      s.get_hitbox.tl.1 s.get_hitbox.get_bl.1 h1
    obtain ⟨v4, e4⟩ := key (fun i => (i, s.get_hitbox.br.2))
      s.get_hitbox.get_tr.1 s.get_hitbox.br.1 h1
    exact ⟨_, by rw [e1, e2, e3, e4]; rfl⟩

theorem dfptp_isSome (o p : Point) (d : ℤ) (hd : validDir d) :
    ∃ v, Submenu.distance_first_point_to_point o p d = some v := by
  unfold Submenu.distance_first_point_to_point
  dsimp only
  rcases hd with h | h | h | h <;> subst h <;> simp only [reduceIte] <;>
    exact ⟨_, rfl⟩

theorem distance_first_kcd_isSome (k : KeyCaptureDrawable) (o : Point) (d : ℤ)
    (hd : validDir d) : ∃ v, Submenu.distance_first_kcd k o d = some v := by
  unfold Submenu.distance_first_kcd
  dsimp only
  rcases hd with h | h | h | h <;> subst h <;> simp only [reduceIte] <;>
    first
      | exact dfptp_isSome _ _ _ (Or.inl rfl)
      | exact dfptp_isSome _ _ _ (Or.inr (Or.inl rfl))
      | exact dfptp_isSome _ _ _ (Or.inr (Or.inr (Or.inl rfl)))
      | exact dfptp_isSome _ _ _ (Or.inr (Or.inr (Or.inr rfl)))

/-! ### Zone banding of `Drawable.distance` (claims C2, C3) -/

theorem distance_band_dir0 (y1 x1 y2 x2 : ℤ)
    (hy1 : 0 ≤ y1) (hy1' : y1 < 256) (hx1 : 0 ≤ x1) (hx1' : x1 < 256)
    (hy2 : 0 ≤ y2) (hy2' : y2 < 256) (hx2 : 0 ≤ x2) (hx2' : x2 < 256)
    (hne : ¬(x1 = x2 ∧ y1 = y2)) :
    ∃ v k, Drawable.distance (y1, x1) (y2, x2) 0 = some v ∧
      Drawable.zone (y1, x1) (y2, x2) 0 = some k ∧
      (k : ℤ) * (MAX_DELTA * MAX_DELTA) ≤ v ∧
      v < ((k : ℤ) + 1) * (MAX_DELTA * MAX_DELTA) := by
  unfold Drawable.distance Drawable.zone
  dsimp only
  simp only [if_neg hne, reduceIte]
  split_ifs with hz1 hz2 hz3
  · refine ⟨_, 0, rfl, rfl, ?_, ?_⟩ <;> norm_num [MAX_DELTA]
    · nlinarith [mul_nonneg hz1.2 (show (0 : ℤ) ≤ 256 - y1 - 1 by omega)]
    · nlinarith [mul_le_mul_of_nonneg_right (show x2 - x1 ≤ 255 by omega)
        (show (0 : ℤ) ≤ 256 - y1 - 1 by omega)]
  · refine ⟨_, 1, rfl, rfl, ?_, ?_⟩ <;> norm_num [MAX_DELTA]
    · nlinarith [mul_nonneg (show (0 : ℤ) ≤ 256 - y1 - 1 by omega)
        (show (0 : ℤ) ≤ 256 - x1 by omega),
        mul_nonneg (show (0 : ℤ) ≤ y2 - y1 - 1 by omega) hx1]
    · nlinarith [mul_le_mul_of_nonneg_right
        (show y2 - y1 - 1 ≤ 254 - y1 by omega) hx1]
  · refine ⟨_, 2, rfl, rfl, ?_, ?_⟩ <;> norm_num [MAX_DELTA]
    · nlinarith [mul_nonneg (show (0 : ℤ) ≤ x2 - x1 - 1 by omega)
        (show (0 : ℤ) ≤ y1 + 1 by omega)]
    · nlinarith [mul_le_mul_of_nonneg_right
        (show x2 - x1 - 1 ≤ 254 - x1 by omega) (show (0 : ℤ) ≤ y1 + 1 by omega),
        mul_nonneg hx1 hy1]
  · refine ⟨_, 3, rfl, rfl, ?_, ?_⟩ <;> norm_num [MAX_DELTA]
    · nlinarith [mul_nonneg (show (0 : ℤ) ≤ y1 + 1 by omega)
        (show (0 : ℤ) ≤ 256 - x1 - 1 by omega),
        mul_nonneg hx2 (show (0 : ℤ) ≤ y1 + 1 by omega)]
    · have hdy : y2 ≤ y1 := by omega
      rcases lt_or_eq_of_le (show x2 ≤ x1 by omega) with hlt | heq
      · nlinarith [mul_le_mul_of_nonneg_right
          (show x2 ≤ x1 - 1 by omega) (show (0 : ℤ) ≤ y1 + 1 by omega)]
      · subst heq
        nlinarith [show y2 ≤ y1 - 1 by omega]

theorem distance_band_dir1 (y1 x1 y2 x2 : ℤ)
    (hy1 : 0 ≤ y1) (hy1' : y1 < 256) (hx1 : 0 ≤ x1) (hx1' : x1 < 256)
    (hy2 : 0 ≤ y2) (hy2' : y2 < 256) (hx2 : 0 ≤ x2) (hx2' : x2 < 256)
    (hne : ¬(x1 = x2 ∧ y1 = y2)) :
    ∃ v k, Drawable.distance (y1, x1) (y2, x2) 1 = some v ∧
      Drawable.zone (y1, x1) (y2, x2) 1 = some k ∧
      (k : ℤ) * (MAX_DELTA * MAX_DELTA) ≤ v ∧
      v < ((k : ℤ) + 1) * (MAX_DELTA * MAX_DELTA) := by
  unfold Drawable.distance Drawable.zone
  dsimp only
  simp only [if_neg hne, show ((1 : ℤ) = 0) = False by norm_num,
    show ((1 : ℤ) = 1) = True by norm_num, if_true, if_false]
  split_ifs with hz1 hz2 hz3 hz4
  · refine ⟨_, 0, rfl, rfl, ?_, ?_⟩ <;> norm_num [MAX_DELTA] <;> omega
  · refine ⟨_, 1, rfl, rfl, ?_, ?_⟩ <;> norm_num [MAX_DELTA]
    · nlinarith [mul_nonneg (show (0 : ℤ) ≤ x2 - x1 - 1 by omega) hy1]
    · nlinarith [mul_le_mul_of_nonneg_right
        (show x2 - x1 - 1 ≤ 254 - x1 by omega) hy1, mul_nonneg hx1 hy1]
  · refine ⟨_, 2, rfl, rfl, ?_, ?_⟩ <;> norm_num [MAX_DELTA]
    · nlinarith [mul_nonneg (show (0 : ℤ) ≤ x2 - x1 - 1 by omega)
        (show (0 : ℤ) ≤ 256 - y1 - 1 by omega)]
    · nlinarith [mul_le_mul_of_nonneg_right (show x2 - x1 - 1 ≤ 254 by omega)
        (show (0 : ℤ) ≤ 256 - y1 - 1 by omega)]
  · refine ⟨_, 3, rfl, rfl, ?_, ?_⟩ <;> norm_num [MAX_DELTA] <;> omega
  · refine ⟨_, 4, rfl, rfl, ?_, ?_⟩ <;> norm_num [MAX_DELTA] <;> omega

theorem distance_band_dir2 (y1 x1 y2 x2 : ℤ)
    (hy1 : 0 ≤ y1) (hy1' : y1 < 256) (hx1 : 0 ≤ x1) (hx1' : x1 < 256)
    (hy2 : 0 ≤ y2) (hy2' : y2 < 256) (hx2 : 0 ≤ x2) (hx2' : x2 < 256)
    (hne : ¬(x1 = x2 ∧ y1 = y2)) :
    ∃ v k, Drawable.distance (y1, x1) (y2, x2) 2 = some v ∧
      Drawable.zone (y1, x1) (y2, x2) 2 = some k ∧
      (k : ℤ) * (MAX_DELTA * MAX_DELTA) ≤ v ∧
      v < ((k : ℤ) + 1) * (MAX_DELTA * MAX_DELTA) := by
  unfold Drawable.distance Drawable.zone
  dsimp only
  simp only [if_neg hne, show ((2 : ℤ) = 0) = False by norm_num,
    show ((2 : ℤ) = 1) = False by norm_num,
    show ((2 : ℤ) = 2) = True by norm_num, if_true, if_false]
  split_ifs with hz1 hz2 hz3 hz4
  · refine ⟨_, 0, rfl, rfl, ?_, ?_⟩ <;> norm_num [MAX_DELTA]
    · nlinarith [mul_nonneg hy1 (show (0 : ℤ) ≤ x1 - x2 by omega)]
    · nlinarith [mul_le_mul_of_nonneg_left (show x1 - x2 ≤ 255 by omega) hy1]
  · refine ⟨_, 1, rfl, rfl, ?_, ?_⟩ <;> norm_num [MAX_DELTA]
    · nlinarith [mul_nonneg hy1 (show (0 : ℤ) ≤ x1 + 1 by omega),
        mul_nonneg (show (0 : ℤ) ≤ x2 - x1 - 1 by omega) hy1]
    · nlinarith [mul_le_mul_of_nonneg_left (show x2 ≤ 255 by omega) hy1]
  · refine ⟨_, 2, rfl, rfl, ?_, ?_⟩ <;> norm_num [MAX_DELTA] <;> omega
  · refine ⟨_, 2, rfl, rfl, ?_, ?_⟩ <;> norm_num [MAX_DELTA]
    · nlinarith [mul_nonneg hx1 (show (0 : ℤ) ≤ 256 - y2 - 1 by omega),
        show (1 : ℤ) ≤ x1 by omega]
    · nlinarith [mul_nonneg hx1 (show (0 : ℤ) ≤ y2 - y1 - 1 by omega),
        mul_le_mul_of_nonneg_right (show x1 ≤ 255 by omega)
          (show (0 : ℤ) ≤ 256 - y1 by omega)]
  · refine ⟨_, 3, rfl, rfl, ?_, ?_⟩ <;> norm_num [MAX_DELTA]
    · nlinarith [mul_nonneg (show (0 : ℤ) ≤ 256 - y1 by omega) hx1,
        mul_nonneg (show (0 : ℤ) ≤ 256 - x1 by omega)
          (show (0 : ℤ) ≤ 256 - y2 - 1 by omega)]
    · have hdy : y1 ≤ y2 := by omega
      have hdx : x1 ≤ x2 := by omega
      rcases lt_or_eq_of_le hdy with hlt | heq
      · nlinarith [mul_nonneg (show (0 : ℤ) ≤ 256 - x1 by omega)
          (show (0 : ℤ) ≤ y2 - y1 - 1 by omega)]
      · subst heq
        nlinarith [show x1 + 1 ≤ x2 by omega]

theorem distance_band_dir3 (y1 x1 y2 x2 : ℤ)
    (hy1 : 0 ≤ y1) (hy1' : y1 < 256) (hx1 : 0 ≤ x1) (hx1' : x1 < 256)
    (hy2 : 0 ≤ y2) (hy2' : y2 < 256) (hx2 : 0 ≤ x2) (hx2' : x2 < 256)
    (hne : ¬(x1 = x2 ∧ y1 = y2)) :
    ∃ v k, Drawable.distance (y1, x1) (y2, x2) 3 = some v ∧
      Drawable.zone (y1, x1) (y2, x2) 3 = some k ∧
      (k : ℤ) * (MAX_DELTA * MAX_DELTA) ≤ v ∧
      v < ((k : ℤ) + 1) * (MAX_DELTA * MAX_DELTA) := by
  unfold Drawable.distance Drawable.zone
  dsimp only
  simp only [if_neg hne, show ((3 : ℤ) = 0) = False by norm_num,
    show ((3 : ℤ) = 1) = False by norm_num,
    show ((3 : ℤ) = 2) = False by norm_num,
    show ((3 : ℤ) = 3) = True by norm_num, if_true, if_false]
  split_ifs with hz1 hz2 hz3 hz4
  · refine ⟨_, 0, rfl, rfl, ?_, ?_⟩ <;> norm_num [MAX_DELTA] <;> omega
  · refine ⟨_, 1, rfl, rfl, ?_, ?_⟩ <;> norm_num [MAX_DELTA]
    · nlinarith [mul_nonneg hy1 (show (0 : ℤ) ≤ x1 - x2 - 1 by omega)]
    · nlinarith [mul_le_mul_of_nonneg_left
        (show x1 - x2 - 1 ≤ 254 by omega) hy1]
  · refine ⟨_, 2, rfl, rfl, ?_, ?_⟩ <;> norm_num [MAX_DELTA]
    · nlinarith [mul_nonneg (show (0 : ℤ) ≤ x1 - x2 - 1 by omega)
        (show (0 : ℤ) ≤ 256 - y1 - 1 by omega)]
    · nlinarith [mul_le_mul_of_nonneg_right (show x1 - x2 - 1 ≤ 254 by omega)
        (show (0 : ℤ) ≤ 256 - y1 - 1 by omega)]
  · refine ⟨_, 3, rfl, rfl, ?_, ?_⟩ <;> norm_num [MAX_DELTA] <;> omega
  · refine ⟨_, 4, rfl, rfl, ?_, ?_⟩ <;> norm_num [MAX_DELTA] <;> omega

/-! ### Behaviour of the Group-level operations under the focus invariant -/

theorem pyIdx_nonneg (len : ℕ) (i : ℤ) (h0 : 0 ≤ i) (h1 : i < (len : ℤ)) :
    pyIdx len i = some i.toNat := by
  unfold pyIdx
  dsimp only
  rw [if_neg (show ¬i < 0 by omega),
    if_pos (show 0 ≤ i ∧ i < (len : ℤ) by omega)]

theorem pyIdx_neg_one (len : ℕ) (h : 1 ≤ len) :
    pyIdx len (-1) = some (len - 1) := by
  unfold pyIdx
  dsimp only
  rw [if_pos (show (-1 : ℤ) < 0 by norm_num),
    if_pos (show 0 ≤ (len : ℤ) + -1 ∧ (len : ℤ) + -1 < (len : ℤ) by omega)]
  congr 1
  omega

theorem activateKcds_length (l : List KeyCaptureDrawable) (idx : ℤ) (i : ℕ) :
    (activateKcds l idx i).length = l.length := by
  induction l generalizing i with
  | nil => rfl
  | cons k ks ih => simp [activateKcds, ih]

theorem activate_fields (s : Submenu) (idx : ℤ) :
    (s.activate idx).selected = idx ∧ (s.activate idx).tl = s.tl ∧
      (s.activate idx).br = s.br ∧
      (s.activate idx).kcds.length = s.kcds.length := by
  refine ⟨rfl, rfl, rfl, ?_⟩
  simp [Submenu.activate, activateKcds_length]

theorem capture_take_spec (s : Submenu) (o : Point) (d : ℤ)
    (hd : validDir d) (hne : s.kcds ≠ []) :
    ∃ s1, s.capture_take o d = some s1 ∧ s1.tl = s.tl ∧ s1.br = s.br ∧
      s1.kcds.length = s.kcds.length ∧ 0 ≤ s1.selected ∧
      s1.selected < (s.kcds.length : ℤ) := by
  have hkeys : ∀ o1 ∈ s.kcds.map
      (fun k => Submenu.distance_first_kcd k o d), o1.isSome := by
    intro o1 ho1
    obtain ⟨k, _, hk⟩ := List.mem_map.mp ho1
    obtain ⟨v, hv⟩ := distance_first_kcd_isSome k o d hd
    rw [← hk, hv]
    rfl
  have hkne : s.kcds.map (fun k => Submenu.distance_first_kcd k o d) ≠ [] := by
    intro h0
    exact hne (List.map_eq_nil_iff.mp h0)
  obtain ⟨j, hj, hjlt⟩ := pyArgmin_lt _ hkne hkeys
  rw [List.length_map] at hjlt
  have hff : s.find_first o d = some j := by
    unfold Submenu.find_first
    exact hj
  obtain ⟨e1, e2, e3, e4⟩ := activate_fields s (j : ℤ)
  refine ⟨s.activate (j : ℤ), ?_, e2, e3, e4, ?_, ?_⟩
  · unfold Submenu.capture_take
    rw [hff]
    rfl
  · rw [e1]
    exact Int.ofNat_nonneg j
  · rw [e1]
    exact_mod_cast hjlt

theorem capture_remove_spec (s : Submenu) (d : ℤ)
    (h0 : 0 ≤ s.selected) (h1 : s.selected < (s.kcds.length : ℤ)) :
    ∃ s1, s.capture_remove d = some s1 ∧ s1.selected = -1 ∧ s1.tl = s.tl ∧
      s1.br = s.br ∧ s1.kcds.length = s.kcds.length := by
  have hj := pyIdx_nonneg s.kcds.length s.selected h0 h1
  have hjlt : s.selected.toNat < s.kcds.length := by omega
  have hget : s.kcds[s.selected.toNat]? = some (s.kcds.get ⟨s.selected.toNat, hjlt⟩) := by
    rw [List.getElem?_eq_getElem hjlt, List.get_eq_getElem]
  refine ⟨{ s with
      kcds := s.kcds.set s.selected.toNat
        ((s.kcds.get ⟨s.selected.toNat, hjlt⟩).capture_remove d),
      selected := -1 }, ?_, rfl, rfl, rfl, by simp⟩
  unfold Submenu.capture_remove
  rw [hj]
  show (s.kcds[s.selected.toNat]?).bind _ = _
  rw [hget]
  rfl

theorem get_set_cases {α : Type} (l : List α) (n : ℕ) (c : α) (i : ℕ)
    (hi : i < (l.set n c).length) :
    (l.set n c).get ⟨i, hi⟩ =
      if i = n then c else l.get ⟨i, by simpa using hi⟩ := by
  simp only [List.get_eq_getElem]
  split_ifs with h
  · subst h
    exact List.getElem_set_self (by simpa using hi)
  · exact List.getElem_set_ne (fun hh => h hh.symm) hi

theorem menuInv_set_self (m : Menu) (s1 : Submenu)
    (hInv : MenuInv m) (hwf : SubWF s1)
    (hsel : 0 ≤ s1.selected ∧ s1.selected < (s1.kcds.length : ℤ)) :
    MenuInv { m with submenus := m.submenus.set m.selected_submenu s1 } := by
  obtain ⟨hn, hWF, hFoc⟩ := hInv
  refine ⟨by simpa using hn, ?_, ?_⟩
  · intro i hi
    rw [get_set_cases]
    split_ifs with h
    · exact hwf
    · exact hWF i (by simpa using hi)
  · intro i hi
    rw [get_set_cases]
    split_ifs with h1
    · exact hsel
    · have := hFoc i (by simpa using hi)
      rw [if_neg h1] at this
      exact this

theorem menuInv_handoff (m : Menu) (mi : ℕ) (cur1 target1 : Submenu)
    (hmi : mi < m.submenus.length) (hne : mi ≠ m.selected_submenu)
    (hInv : MenuInv m) (hcwf : SubWF cur1) (hcsel : cur1.selected = -1)
    (htwf : SubWF target1) (htsel : 0 ≤ target1.selected)
    (htsel2 : target1.selected < (target1.kcds.length : ℤ)) :
    MenuInv { m with
      submenus := (m.submenus.set m.selected_submenu cur1).set mi target1,
      selected_submenu := mi } := by
  obtain ⟨hn, hWF, hFoc⟩ := hInv
  refine ⟨by simpa using hmi, ?_, ?_⟩
  · intro i hi
    rw [get_set_cases]
    split_ifs with h
    · exact htwf
    · rw [get_set_cases]
      split_ifs with h2
      · exact hcwf
      · exact hWF i (by simpa using hi)
  · intro i hi
    rw [get_set_cases]
    split_ifs with h1
    · exact ⟨htsel, htsel2⟩
    · rw [get_set_cases]
      split_ifs with h4
      · exact hcsel
      · have := hFoc i (by simpa using hi)
        rw [if_neg h4] at this
        exact this

theorem submenu_keys_isSome (m : Menu) (o : Point) (d : ℤ) (hd : validDir d)
    (hWF : ∀ i, ∀ hi : i < m.submenus.length, SubWF (m.submenus.get ⟨i, hi⟩)) :
    ∀ o1 ∈ m.submenus.map (fun s => s.distance_from o d), o1.isSome := by
  intro o1 ho1
  obtain ⟨s, hs, hmap⟩ := List.mem_map.mp ho1
  obtain ⟨i, hi, hget⟩ := List.getElem_of_mem hs
  have hwf : SubWF s := by
    have := hWF i hi
    rw [List.get_eq_getElem] at this
    rwa [hget] at this
  obtain ⟨v, hv⟩ := submenu_distance_from_isSome s o d hd hwf.2.1 hwf.2.2
  rw [← hmap, hv]
  rfl

theorem submenu_goto_branch_inv (m : Menu) (current : Submenu) (o : Point)
    (d : ℤ) (hd : validDir d) (hInv : MenuInv m)
    (hn : m.selected_submenu < m.submenus.length)
    (hcur : m.submenus.get ⟨m.selected_submenu, hn⟩ = current) :
    ∃ r, m.submenu_goto_branch current o d = some r ∧
      ((r.2 = false ∧ r.1 = m) ∨
        (r.2 = true ∧ MenuInv r.1 ∧
          r.1.submenus.length = m.submenus.length)) := by
  obtain ⟨hn0, hWF, hFoc⟩ := hInv
  have hkne : m.submenus.map (fun s => s.distance_from o d) ≠ [] := by
    intro h0
    have := List.map_eq_nil_iff.mp h0
    rw [this] at hn
    simp at hn
  obtain ⟨mi, hmi, hmilt⟩ :=
    pyArgmin_lt _ hkne (submenu_keys_isSome m o d hd hWF)
  rw [List.length_map] at hmilt
  unfold Menu.submenu_goto_branch
  rw [hmi]
  simp only [Option.bind_eq_bind, Option.some_bind]
  by_cases hmn : mi = m.selected_submenu
  · rw [if_pos hmn]
    exact ⟨(m, false), rfl, Or.inl ⟨rfl, rfl⟩⟩
  · rw [if_neg hmn]
    have hfoc := hFoc m.selected_submenu hn
    rw [if_pos rfl, hcur] at hfoc
    obtain ⟨cur1, hc, hcsel, hctl, hcbr, hclen⟩ :=
      capture_remove_spec current d hfoc.1 hfoc.2
    rw [hc]
    simp only [Option.bind_eq_bind, Option.some_bind]
    have hcurwf : SubWF current := by
      have := hWF m.selected_submenu hn
      rwa [hcur] at this
    have hc1wf : SubWF cur1 := by
      refine ⟨?_, by rw [hctl, hcbr]; exact hcurwf.2.1,
        by rw [hctl, hcbr]; exact hcurwf.2.2⟩
      intro h0
      rw [h0] at hclen
      simp at hclen
      exact hcurwf.1 (List.length_eq_zero.mp hclen.symm)
    have hmilt2 : mi < (m.submenus.set m.selected_submenu cur1).length := by
      simpa using hmilt
    have htget : (m.submenus.set m.selected_submenu cur1)[mi]? =
        some (m.submenus.get ⟨mi, hmilt⟩) := by
      rw [List.getElem?_eq_getElem hmilt2]
      congr 1
      rw [List.get_eq_getElem]
      exact List.getElem_set_ne (fun hh => hmn hh.symm) hmilt2
    rw [htget]
    simp only [Option.bind_eq_bind, Option.some_bind]
    have htwf : SubWF (m.submenus.get ⟨mi, hmilt⟩) := hWF mi hmilt
    obtain ⟨t1, ht, httl, htbr, htlen, htsel0, htsel1⟩ :=
      capture_take_spec (m.submenus.get ⟨mi, hmilt⟩) o d hd htwf.1
    rw [ht]
    simp only [Option.bind_eq_bind, Option.some_bind]
    refine ⟨_, rfl, Or.inr ⟨rfl, ?_, by simp⟩⟩
    have ht1wf : SubWF t1 := by
      refine ⟨?_, by rw [httl, htbr]; exact htwf.2.1,
        by rw [httl, htbr]; exact htwf.2.2⟩
      intro h0
      rw [h0] at htlen
      simp at htlen
      exact htwf.1 (List.length_eq_zero.mp htlen.symm)
    exact menuInv_handoff m mi cur1 t1 hmilt hmn ⟨hn0, hWF, hFoc⟩ hc1wf hcsel
      ht1wf htsel0 (by rw [htlen]; exact htsel1)

theorem handle_submenu_goto_inv (m : Menu) (o : Point) (d : ℤ)
    (hd : validDir d) (hInv : MenuInv m) :
    ∃ r, Menu.handle_submenu_goto m o d = some r ∧
      ((r.2 = false ∧ r.1 = m) ∨
        (r.2 = true ∧ MenuInv r.1 ∧
          r.1.submenus.length = m.submenus.length)) := by
  have hn := hInv.1
  have hget : m.submenus[m.selected_submenu]? =
      some (m.submenus.get ⟨m.selected_submenu, hn⟩) := by
    rw [List.getElem?_eq_getElem hn, List.get_eq_getElem]
  unfold Menu.handle_submenu_goto
  rw [hget]
  simp only [Option.bind_eq_bind, Option.some_bind]
  rcases hd with h | h | h | h <;> subst h
  · rw [if_pos rfl]
    exact submenu_goto_branch_inv m _ o 0 (Or.inl rfl) hInv hn rfl
  · rw [if_neg (show ¬(1 : ℤ) = 0 by norm_num), if_pos rfl]
    exact submenu_goto_branch_inv m _ o 1 (Or.inr (Or.inl rfl)) hInv hn rfl
  · rw [if_neg (show ¬(2 : ℤ) = 0 by norm_num),
      if_neg (show ¬(2 : ℤ) = 1 by norm_num), if_pos rfl]
    exact submenu_goto_branch_inv m _ o 2 (Or.inr (Or.inr (Or.inl rfl))) hInv
      hn rfl
  · rw [if_neg (show ¬(3 : ℤ) = 0 by norm_num),
      if_neg (show ¬(3 : ℤ) = 1 by norm_num),
      if_neg (show ¬(3 : ℤ) = 2 by norm_num), if_pos rfl]
    exact submenu_goto_branch_inv m _ o 3 (Or.inr (Or.inr (Or.inr rfl))) hInv
      hn rfl

theorem kcd_goto_local_inv (m : Menu) (s : Submenu) (selIdx mi : ℕ)
    (cur : KeyCaptureDrawable) (o : Point) (d : ℤ)
    (hInv : MenuInv m) (hn : m.selected_submenu < m.submenus.length)
    (hs : m.submenus.get ⟨m.selected_submenu, hn⟩ = s)
    (hmi : mi < s.kcds.length) :
    ∃ m1, Submenu.kcd_goto_local m m.selected_submenu s selIdx mi cur o d =
      some m1 ∧ MenuInv m1 ∧ m1.submenus.length = m.submenus.length := by
  have hswf : SubWF s := by
    have := hInv.2.1 m.selected_submenu hn
    rwa [hs] at this
  have hmi1 : mi < (s.kcds.set selIdx (cur.capture_remove d)).length := by
    simpa using hmi
  have ht : (s.kcds.set selIdx (cur.capture_remove d))[mi]? =
      some ((s.kcds.set selIdx (cur.capture_remove d)).get ⟨mi, hmi1⟩) := by
    rw [List.getElem?_eq_getElem hmi1, List.get_eq_getElem]
  unfold Submenu.kcd_goto_local
  dsimp only
  rw [ht]
  simp only [Option.bind_eq_bind, Option.some_bind]
  refine ⟨_, rfl, ?_, by simp⟩
  apply menuInv_set_self m _ hInv
  · refine ⟨?_, hswf.2.1, hswf.2.2⟩
    intro h0
    have hlen := congrArg List.length h0
    simp at hlen
    exact hswf.1 hlen
  · constructor
    · exact Int.ofNat_nonneg mi
    · show (mi : ℤ) < _
      simp only [List.length_set]
      exact_mod_cast hmi


theorem kcd_goto_escalate_inv (m : Menu) (s : Submenu) (selIdx mi : ℕ)
    (cur : KeyCaptureDrawable) (o : Point) (d : ℤ) (hd : validDir d)
    (hInv : MenuInv m) (hn : m.selected_submenu < m.submenus.length)
    (hs : m.submenus.get ⟨m.selected_submenu, hn⟩ = s)
    (hmi : mi < s.kcds.length) :
    ∃ m1, Submenu.kcd_goto_escalate m m.selected_submenu s selIdx mi cur o d =
      some m1 ∧ MenuInv m1 ∧ m1.submenus.length = m.submenus.length := by
  have hswf : SubWF s := by
    have := hInv.2.1 m.selected_submenu hn
    rwa [hs] at this
  have hfoc := hInv.2.2 m.selected_submenu hn
  rw [if_pos rfl, hs] at hfoc
  have hs1wf : SubWF
      ({ s with kcds := s.kcds.set selIdx (cur.capture_remove d) }) := by
    refine ⟨?_, hswf.2.1, hswf.2.2⟩
    intro h0
    have hlen := congrArg List.length h0
    simp at hlen
    exact hswf.1 hlen
  have hInv1 : MenuInv
      { m with
        submenus := m.submenus.set m.selected_submenu
          { s with kcds := s.kcds.set selIdx (cur.capture_remove d) } } := by
    apply menuInv_set_self m _ hInv hs1wf
    refine ⟨hfoc.1, ?_⟩
    show s.selected < _
    simp only [List.length_set]
    exact hfoc.2
  obtain ⟨r, hr, hca⟩ := handle_submenu_goto_inv _ o d hd hInv1
  unfold Submenu.kcd_goto_escalate
  dsimp only
  rw [hr]
  simp only [Option.bind_eq_bind, Option.some_bind]
  obtain ⟨m2, b⟩ := r
  rcases hca with ⟨hb, hm2⟩ | ⟨hb, hInv2, hlen2⟩
  · -- handoff failed: fall back to the local reassignment inside this group
    dsimp only at hb hm2
    subst hb
    subst hm2
    rw [if_neg Bool.false_ne_true]
    have hget2 : (Menu.submenus
          { m with
            submenus := m.submenus.set m.selected_submenu
              { s with
                kcds := s.kcds.set selIdx (cur.capture_remove d) } })[m.selected_submenu]? =
        some { s with kcds := s.kcds.set selIdx (cur.capture_remove d) } := by
      rw [List.getElem?_eq_getElem (by simpa using hn)]
      exact congrArg some (List.getElem_set_self (by simpa using hn))
    rw [hget2]
    simp only [Option.bind_eq_bind, Option.some_bind]
    have hmi2 : mi < (s.kcds.set selIdx (cur.capture_remove d)).length := by
      simpa using hmi
    have ht : (s.kcds.set selIdx (cur.capture_remove d))[mi]? =
        some ((s.kcds.set selIdx (cur.capture_remove d)).get ⟨mi, hmi2⟩) := by
      rw [List.getElem?_eq_getElem hmi2, List.get_eq_getElem]
    rw [ht]
    simp only [Option.bind_eq_bind, Option.some_bind]
    refine ⟨_, rfl, ?_, by simp⟩
    apply menuInv_set_self _ _ hInv1
    · refine ⟨?_, hswf.2.1, hswf.2.2⟩
      intro h0
      have hlen := congrArg List.length h0
      simp at hlen
      exact hswf.1 hlen
    · constructor
      · exact Int.ofNat_nonneg mi
      · show (mi : ℤ) < _
        simp only [List.length_set]
        exact_mod_cast hmi
  · dsimp only at hb
    subst hb
    rw [if_pos rfl]
    refine ⟨m2, rfl, hInv2, ?_⟩
    rw [hlen2]
    simp

theorem handle_kcd_goto_inv (m : Menu) (o : Point) (d : ℤ)
    (hd : validDir d) (hInv : MenuInv m) :
    ∃ m1, Submenu.handle_kcd_goto m o d = some m1 ∧ MenuInv m1 ∧
      m1.submenus.length = m.submenus.length := by
  have hn := hInv.1
  have hget : m.submenus[m.selected_submenu]? =
      some (m.submenus.get ⟨m.selected_submenu, hn⟩) := by
    rw [List.getElem?_eq_getElem hn, List.get_eq_getElem]
  have hfoc := hInv.2.2 m.selected_submenu hn
  rw [if_pos rfl] at hfoc
  have hswf := hInv.2.1 m.selected_submenu hn
  unfold Submenu.handle_kcd_goto
  dsimp only
  rw [hget]
  simp only [Option.bind_eq_bind, Option.some_bind]
  rw [if_neg (show ¬(m.submenus.get ⟨m.selected_submenu, hn⟩).selected = -1
    by omega)]
  rw [pyIdx_nonneg _ _ hfoc.1 hfoc.2]
  simp only [Option.bind_eq_bind, Option.some_bind]
  have hsellt : (m.submenus.get ⟨m.selected_submenu, hn⟩).selected.toNat <
      (m.submenus.get ⟨m.selected_submenu, hn⟩).kcds.length := by omega
  have hcur : (m.submenus.get ⟨m.selected_submenu, hn⟩).kcds[
      (m.submenus.get ⟨m.selected_submenu, hn⟩).selected.toNat]? =
      some ((m.submenus.get ⟨m.selected_submenu, hn⟩).kcds.get
        ⟨(m.submenus.get ⟨m.selected_submenu, hn⟩).selected.toNat, hsellt⟩) := by
    rw [List.getElem?_eq_getElem hsellt]
    rfl
  rw [hcur]
  simp only [Option.bind_eq_bind, Option.some_bind]
  have hkeys : ∀ o1 ∈ (m.submenus.get ⟨m.selected_submenu, hn⟩).kcds.map
      (fun k => k.distance_from o d), o1.isSome := by
    intro o1 ho1
    obtain ⟨k, _, hk⟩ := List.mem_map.mp ho1
    obtain ⟨v, hv⟩ := kcd_distance_from_isSome k o d hd
    rw [← hk, hv]
    rfl
  have hkne : (m.submenus.get ⟨m.selected_submenu, hn⟩).kcds.map
      (fun k => k.distance_from o d) ≠ [] := by
    intro h0
    exact hswf.1 (List.map_eq_nil_iff.mp h0)
  obtain ⟨mi, hmi, hmilt⟩ := pyArgmin_lt _ hkne hkeys
  rw [List.length_map] at hmilt
  rw [hmi]
  simp only [Option.bind_eq_bind, Option.some_bind]
  have hmget : (m.submenus.get ⟨m.selected_submenu, hn⟩).kcds[mi]? =
      some ((m.submenus.get ⟨m.selected_submenu, hn⟩).kcds.get ⟨mi, hmilt⟩) := by
    rw [List.getElem?_eq_getElem hmilt]
    rfl
  rw [hmget]
  simp only [Option.bind_eq_bind, Option.some_bind]
  obtain ⟨dv, hdv⟩ := kcd_distance_from_isSome
    ((m.submenus.get ⟨m.selected_submenu, hn⟩).kcds.get ⟨mi, hmilt⟩) o d hd
  rw [hdv]
  simp only [Option.bind_eq_bind, Option.some_bind]
  rcases hd with h | h | h | h <;> subst h
  · rw [if_pos rfl]
    by_cases hcond : dv < MAX_DELTA * MAX_DELTA ∨
        dv < 2 * (MAX_DELTA * MAX_DELTA)
    · rw [if_pos hcond]
      exact kcd_goto_local_inv m _ _ mi _ o 0 hInv hn rfl hmilt
    · rw [if_neg hcond]
      exact kcd_goto_escalate_inv m _ _ mi _ o 0 (Or.inl rfl) hInv hn rfl hmilt
  · rw [if_neg (show ¬(1 : ℤ) = 0 by norm_num), if_pos rfl]
    by_cases hcond : dv < MAX_DELTA * MAX_DELTA ∨
        dv < 2 * (MAX_DELTA * MAX_DELTA) ∨ dv < 3 * (MAX_DELTA * MAX_DELTA) ∨
        dv < 4 * (MAX_DELTA * MAX_DELTA)
    · rw [if_pos hcond]
      exact kcd_goto_local_inv m _ _ mi _ o 1 hInv hn rfl hmilt
    · rw [if_neg hcond]
      exact kcd_goto_escalate_inv m _ _ mi _ o 1 (Or.inr (Or.inl rfl)) hInv hn
        rfl hmilt
  · rw [if_neg (show ¬(2 : ℤ) = 0 by norm_num),
      if_neg (show ¬(2 : ℤ) = 1 by norm_num), if_pos rfl]
    by_cases hcond : dv < MAX_DELTA * MAX_DELTA ∨
        dv < 2 * (MAX_DELTA * MAX_DELTA)
    · rw [if_pos hcond]
      exact kcd_goto_local_inv m _ _ mi _ o 2 hInv hn rfl hmilt
    · rw [if_neg hcond]
      exact kcd_goto_escalate_inv m _ _ mi _ o 2 (Or.inr (Or.inr (Or.inl rfl)))
        hInv hn rfl hmilt
  · rw [if_neg (show ¬(3 : ℤ) = 0 by norm_num),
      if_neg (show ¬(3 : ℤ) = 1 by norm_num),
      if_neg (show ¬(3 : ℤ) = 2 by norm_num), if_pos rfl]
    by_cases hcond : dv < MAX_DELTA * MAX_DELTA ∨
        dv < 2 * (MAX_DELTA * MAX_DELTA) ∨ dv < 3 * (MAX_DELTA * MAX_DELTA) ∨
        dv < 4 * (MAX_DELTA * MAX_DELTA)
    · rw [if_pos hcond]
      exact kcd_goto_local_inv m _ _ mi _ o 3 hInv hn rfl hmilt
    · rw [if_neg hcond]
      exact kcd_goto_escalate_inv m _ _ mi _ o 3 (Or.inr (Or.inr (Or.inr rfl)))
        hInv hn rfl hmilt


/-! ### Behaviour of the distance computations for invalid directions -/

theorem distance_self_cond (o p : Point) (d : ℤ)
    (h : o.2 = p.2 ∧ o.1 = p.1) :
    Drawable.distance o p d = some (MAX_DELTA * MAX_DELTA) := by
  unfold Drawable.distance
  dsimp only
  rw [if_pos h]

theorem distance_invalid (o p : Point) (d : ℤ) (hd : ¬validDir d)
    (hne : ¬(o.2 = p.2 ∧ o.1 = p.1)) : Drawable.distance o p d = none := by
  have h0 : ¬d = 0 ∧ ¬d = 1 ∧ ¬d = 2 ∧ ¬d = 3 := by
    unfold validDir at hd
    push_neg at hd
    exact hd
  unfold Drawable.distance
  dsimp only
  rw [if_neg hne, if_neg h0.1, if_neg h0.2.1, if_neg h0.2.2.1,
    if_neg h0.2.2.2]

theorem kcd_distance_from_inside (k : KeyCaptureDrawable) (p : Point) (d : ℤ)
    (hin : k.hitbox.is_inside p) :
    k.distance_from p d = some (MAX_DELTA * MAX_DELTA * MAX_DELTA) := by
  unfold KeyCaptureDrawable.distance_from
  dsimp only
  rw [if_pos hin]

theorem kcd_distance_from_invalid (k : KeyCaptureDrawable) (p : Point)
    (d : ℤ) (hd : ¬validDir d) (hout : ¬k.hitbox.is_inside p) :
    k.distance_from p d = none := by
  unfold KeyCaptureDrawable.distance_from
  dsimp only
  rw [if_neg hout]
  by_cases htl : p.2 = k.hitbox.tl.2 ∧ p.1 = k.hitbox.tl.1
  · rw [distance_self_cond _ _ _ htl]
    simp only [Option.bind_eq_bind, Option.some_bind]
    by_cases htr : p.2 = k.hitbox.get_tr.2 ∧ p.1 = k.hitbox.get_tr.1
    · rw [distance_self_cond _ _ _ htr]
      simp only [Option.bind_eq_bind, Option.some_bind]
      by_cases hbr : p.2 = k.hitbox.br.2 ∧ p.1 = k.hitbox.br.1
      · exfalso
        apply hout
        unfold Hitbox.is_inside
        obtain ⟨a1, a2⟩ := htl
        obtain ⟨b1, b2⟩ := hbr
        omega
      · rw [distance_invalid _ _ _ hd hbr]
        rfl
    · rw [distance_invalid _ _ _ hd htr]
      rfl
  · rw [distance_invalid _ _ _ hd htl]
    rfl

theorem seqOpt_none (l : List (Option ℤ)) (h : none ∈ l) :
    seqOpt l = none := by
  induction l with
  | nil => simp at h
  | cons o os ih =>
      rcases List.mem_cons.mp h with h0 | h0
      · rw [← h0]
        rfl
      · cases o with
        | none => rfl
        | some v =>
            show (seqOpt os).bind _ = _
            rw [ih h0]
            rfl

theorem kcd_goto_invalid_inside (m : Menu) (o : Point) (d : ℤ) (s : Submenu)
    (hd : ¬validDir d)
    (hs : m.submenus[m.selected_submenu]? = some s)
    (h0 : 0 ≤ s.selected) (h1 : s.selected < (s.kcds.length : ℤ))
    (hall : ∀ k ∈ s.kcds, k.hitbox.is_inside o) :
    Submenu.handle_kcd_goto m o d = some m := by
  have hds : ¬d = 0 ∧ ¬d = 1 ∧ ¬d = 2 ∧ ¬d = 3 := by
    unfold validDir at hd
    push_neg at hd
    exact hd
  unfold Submenu.handle_kcd_goto
  dsimp only
  rw [hs]
  simp only [Option.bind_eq_bind, Option.some_bind]
  rw [if_neg (by omega)]
  rw [pyIdx_nonneg _ _ h0 h1]
  simp only [Option.bind_eq_bind, Option.some_bind]
  have hsellt : s.selected.toNat < s.kcds.length := by omega
  rw [List.getElem?_eq_getElem hsellt]
  simp only [Option.bind_eq_bind, Option.some_bind]
  have hkeys : ∀ o1 ∈ s.kcds.map (fun k => k.distance_from o d),
      o1.isSome := by
    intro o1 ho1
    obtain ⟨k, hk, hmap⟩ := List.mem_map.mp ho1
    rw [← hmap, kcd_distance_from_inside k o d (hall k hk)]
    rfl
  have hkne : s.kcds.map (fun k => k.distance_from o d) ≠ [] := by
    intro he
    have := List.map_eq_nil_iff.mp he
    rw [this] at h1
    simp at h1
    omega
  obtain ⟨mi, hmi, hmilt⟩ := pyArgmin_lt _ hkne hkeys
  rw [List.length_map] at hmilt
  rw [hmi]
  simp only [Option.bind_eq_bind, Option.some_bind]
  rw [List.getElem?_eq_getElem hmilt]
  simp only [Option.bind_eq_bind, Option.some_bind]
  rw [kcd_distance_from_inside _ o d (hall _ (List.getElem_mem hmilt))]
  simp only [Option.bind_eq_bind, Option.some_bind]
  rw [if_neg hds.1, if_neg hds.2.1, if_neg hds.2.2.1, if_neg hds.2.2.2]

theorem kcd_goto_invalid_raises (m : Menu) (o : Point) (d : ℤ) (s : Submenu)
    (hd : ¬validDir d)
    (hs : m.submenus[m.selected_submenu]? = some s)
    (h0 : 0 ≤ s.selected) (h1 : s.selected < (s.kcds.length : ℤ))
    (k0 : KeyCaptureDrawable) (hk0 : k0 ∈ s.kcds)
    (hout : ¬k0.hitbox.is_inside o) :
    Submenu.handle_kcd_goto m o d = none := by
  unfold Submenu.handle_kcd_goto
  dsimp only
  rw [hs]
  simp only [Option.bind_eq_bind, Option.some_bind]
  rw [if_neg (by omega)]
  rw [pyIdx_nonneg _ _ h0 h1]
  simp only [Option.bind_eq_bind, Option.some_bind]
  have hsellt : s.selected.toNat < s.kcds.length := by omega
  rw [List.getElem?_eq_getElem hsellt]
  simp only [Option.bind_eq_bind, Option.some_bind]
  have hmem : none ∈ s.kcds.map (fun k => k.distance_from o d) :=
    List.mem_map.mpr ⟨k0, hk0, kcd_distance_from_invalid k0 o d hd hout⟩
  have hnone : pyArgmin (s.kcds.map (fun k => k.distance_from o d)) = none := by
    unfold pyArgmin
    rw [seqOpt_none _ hmem]
    rfl
  rw [hnone]
  rfl

/-! ### Claim theorems -/

/-- C1 counterexample: the no-focus-loss claim as stated fails for a
Container holding one widget once an empty Group is also present (such Groups
are reachable through `Submenu.clear()` or `Menu.set_submenu`).  From the
claim's start state — exactly one Group with selected index `≥ 0`, pointed at
by `selected_submenu`, the other at `-1` — a single Right navigation step
escalates, the empty Group's stale `(-1,-1)` bounding box wins the Container
handoff (its perimeter distance 261887 beats the active Group's inside
sentinel `4 * MAX_DELTA² = 262144`), and the empty Group's `find_first` raises
`ValueError` from `min()` over an empty sequence: the step aborts (modelled
`none`) with focus lost instead of leaving exactly one widget focused. -/
theorem no_focus_loss_cex :
    menuWithEmptyGroup.submenus.map Submenu.selected = [0, -1] ∧
    menuWithEmptyGroup.selected_submenu = 0 ∧
    menuWithEmptyGroup.submenus.map (fun s => s.kcds.length) = [1, 0] ∧
    Submenu.handle_kcd_goto menuWithEmptyGroup (0, 9) 1 = none :=
  ⟨by decide, rfl, by decide, by decide⟩

/-- C1 (amended): No-focus-loss invariant, restricted as the counterexample
forces to Containers whose Groups are ALL non-empty (each holding at least one
widget, with a well-formed bounding box — what `Menu.add_key_capture_drawable`
always builds).  Then, starting from a state where the Group at
`selected_submenu` has a member selected (index in range) and every other
Group has selection `-1`, any sequence of arrow-key navigation steps
(`Submenu.handle_kcd_goto` with directions in {0,1,2,3}) completes without
error and preserves that invariant: after each step exactly one Group — the
one `selected_submenu` points at — has a selected member and all others are at
`-1`; in particular when the Container-level handoff fails, the Group
reselects a member locally, so focus is never lost. -/
theorem no_focus_loss (m : Menu) (steps : List (Point × ℤ))
    (hInv : MenuInv m) (hsteps : ∀ x ∈ steps, validDir x.2) :
    ∃ m1, nav_steps m steps = some m1 ∧ MenuInv m1 := by
  induction steps generalizing m with
  | nil => exact ⟨m, rfl, hInv⟩
  | cons x rest ih =>
      obtain ⟨o, d⟩ := x
      obtain ⟨m1, h1, hInv1, _⟩ := handle_kcd_goto_inv m o d
        (hsteps (o, d) (List.mem_cons_self _ _)) hInv
      obtain ⟨m2, h2, hInv2⟩ := ih m1 hInv1
        (fun y hy => hsteps y (List.mem_cons_of_mem _ hy))
      refine ⟨m2, ?_, hInv2⟩
      unfold nav_steps
      rw [h1]
      simp only [Option.bind_eq_bind, Option.some_bind]
      exact h2

/-- Witness for C1: the two-Group layout of spec §8, pressing Right twice. -/
theorem no_focus_loss_witness :
    ∃ m1, nav_steps menuAB [((0, 9), 1), ((0, 29), 1)] = some m1 ∧
      MenuInv m1 :=
  no_focus_loss menuAB [((0, 9), 1), ((0, 29), 1)] (by decide) (by decide)

theorem distance_band (o p : Point) (d : ℤ) (hd : validDir d) (hne : o ≠ p)
    (ho : inRange o) (hp : inRange p) :
    ∃ v k, Drawable.distance o p d = some v ∧ Drawable.zone o p d = some k ∧
      (k : ℤ) * (MAX_DELTA * MAX_DELTA) ≤ v ∧
      v < ((k : ℤ) + 1) * (MAX_DELTA * MAX_DELTA) := by
  simp only [inRange, MAX_DELTA] at ho hp
  obtain ⟨hoy, hoy2, hox, hox2⟩ := ho
  obtain ⟨hpy, hpy2, hpx, hpx2⟩ := hp
  have hne2 : ¬(o.2 = p.2 ∧ o.1 = p.1) := by
    intro h
    exact hne (Prod.ext h.2 h.1)
  rcases hd with h | h | h | h <;> subst h
  · exact distance_band_dir0 o.1 o.2 p.1 p.2 hoy hoy2 hox hox2 hpy hpy2 hpx
      hpx2 hne2
  · exact distance_band_dir1 o.1 o.2 p.1 p.2 hoy hoy2 hox hox2 hpy hpy2 hpx
      hpx2 hne2
  · exact distance_band_dir2 o.1 o.2 p.1 p.2 hoy hoy2 hox hox2 hpy hpy2 hpx
      hpx2 hne2
  · exact distance_band_dir3 o.1 o.2 p.1 p.2 hoy hoy2 hox hox2 hpy hpy2 hpx
      hpx2 hne2

/-- C2: Zone banding of the distance function.  For every valid direction and
pair of distinct in-range points, `Drawable.distance` returns a value lying in
the band `[k * MAX_DELTA², (k+1) * MAX_DELTA²)` of the candidate's angular
zone `k` (the supplement multiplier of the matching branch, determined by the
signs of the row/column offsets relative to the direction), so bands of
distinct zones are disjoint and every candidate in an earlier zone ranks
strictly lower than every candidate in a later zone. -/
theorem zone_banding_claim :
    (∀ (o p : Point) (d : ℤ), validDir d → o ≠ p → inRange o → inRange p →
      ∃ v k, Drawable.distance o p d = some v ∧
        Drawable.zone o p d = some k ∧
        (k : ℤ) * (MAX_DELTA * MAX_DELTA) ≤ v ∧
        v < ((k : ℤ) + 1) * (MAX_DELTA * MAX_DELTA)) ∧
    (∀ (o p o2 p2 : Point) (d d2 : ℤ) (k k2 : ℕ) (v v2 : ℤ),
      validDir d → o ≠ p → inRange o → inRange p →
      validDir d2 → o2 ≠ p2 → inRange o2 → inRange p2 →
      Drawable.distance o p d = some v → Drawable.zone o p d = some k →
      Drawable.distance o2 p2 d2 = some v2 →
      Drawable.zone o2 p2 d2 = some k2 → k < k2 → v < v2) := by
  constructor
  · exact fun o p d hd hne ho hp => distance_band o p d hd hne ho hp
  · intro o p o2 p2 d d2 k k2 v v2 hd hne ho hp hd2 hne2 ho2 hp2 hv hk hv2
      hk2 hkk
    obtain ⟨v_, k_, hv_, hk_, hlo_, hhi_⟩ := distance_band o p d hd hne ho hp
    obtain ⟨w_, l_, hw_, hl_, hlo2_, hhi2_⟩ :=
      distance_band o2 p2 d2 hd2 hne2 ho2 hp2
    rw [hv] at hv_
    rw [hk] at hk_
    rw [hv2] at hw_
    rw [hk2] at hl_
    obtain rfl := Option.some.inj hv_
    obtain rfl := Option.some.inj hk_
    obtain rfl := Option.some.inj hw_
    obtain rfl := Option.some.inj hl_
    have hcast : (k : ℤ) + 1 ≤ (k2 : ℤ) := by exact_mod_cast hkk
    have hmul : ((k : ℤ) + 1) * (MAX_DELTA * MAX_DELTA) ≤
        (k2 : ℤ) * (MAX_DELTA * MAX_DELTA) :=
      mul_le_mul_of_nonneg_right hcast (by norm_num [MAX_DELTA])
    linarith

/-- Witness for C2: a straight-ahead candidate (zone 0, value 256) and a
sideways candidate (zone 2, value 196353) for direction Down from `(0,0)`. -/
theorem zone_banding_claim_witness :
    (∃ v k, Drawable.distance (0, 0) (1, 1) 0 = some v ∧
      Drawable.zone (0, 0) (1, 1) 0 = some k ∧
      (k : ℤ) * (MAX_DELTA * MAX_DELTA) ≤ v ∧
      v < ((k : ℤ) + 1) * (MAX_DELTA * MAX_DELTA)) ∧
    (256 : ℤ) < 196353 :=
  ⟨zone_banding_claim.1 (0, 0) (1, 1) 0 (Or.inl rfl) (by decide) (by decide)
      (by decide),
   zone_banding_claim.2 (0, 0) (1, 1) (0, 0) (0, 1) 0 0 0 2 256 196353
      (Or.inl rfl) (by decide) (by decide) (by decide) (Or.inl rfl)
      (by decide) (by decide) (by decide) (by decide) (by decide) (by decide)
      (by decide) (by decide)⟩

/-- C3 counterexample: the self-distance `MAX_DELTA² = 65536` is NOT the
maximum value the distance function can return: the candidate `(1,0)` in
direction Right from `(0,0)` scores `3 * MAX_DELTA² + 1 = 196609 > 65536`. -/
theorem self_distance_maximal_cex :
    Drawable.distance (0, 0) (0, 0) 1 = some 65536 ∧
    Drawable.distance (0, 0) (1, 0) 1 = some 196609 ∧
    ¬(196609 : ℤ) ≤ 65536 :=
  ⟨by decide, by decide, by decide⟩

/-- C3 (amended): for every point and EVERY direction (the self test precedes
direction validation), the self-distance is the constant `MAX_DELTA²`; this
exceeds the distance of every strictly-ahead (zone 0) candidate, so the origin
never wins a min-based search against such a candidate, but it is not the
maximum value overall (candidates in later zones score higher). -/
theorem self_distance_const :
    (∀ (o : Point) (d : ℤ),
      Drawable.distance o o d = some (MAX_DELTA * MAX_DELTA)) ∧
    (∀ (o p : Point) (d : ℤ), validDir d → o ≠ p → inRange o → inRange p →
      Drawable.zone o p d = some 0 →
      ∃ v, Drawable.distance o p d = some v ∧ v < MAX_DELTA * MAX_DELTA) := by
  constructor
  · intro o d
    unfold Drawable.distance
    dsimp only
    rw [if_pos ⟨rfl, rfl⟩]
  · intro o p d hd hne ho hp hz
    obtain ⟨v, k, hv, hk, hlo, hhi⟩ := distance_band o p d hd hne ho hp
    rw [hz] at hk
    obtain rfl := Option.some.inj hk
    refine ⟨v, hv, ?_⟩
    simpa using hhi

/-- Witness for C3 (amended): self-distance at `(5,5)` direction Up, and the
zone-0 candidate `(3,0)` below `(0,0)`. -/
theorem self_distance_const_witness :
    Drawable.distance (5, 5) (5, 5) 2 = some (MAX_DELTA * MAX_DELTA) ∧
    ∃ v, Drawable.distance (0, 0) (3, 0) 0 = some v ∧
      v < MAX_DELTA * MAX_DELTA :=
  ⟨self_distance_const.1 (5, 5) 2,
   self_distance_const.2 (0, 0) (3, 0) 0 (Or.inl rfl) (by decide) (by decide)
     (by decide) (by decide)⟩

theorem submenu_goto_branch_eq_spec (m : Menu) (o : Point) (d : ℤ)
    (current : Submenu)
    (hcur : m.submenus[m.selected_submenu]? = some current) :
    m.submenu_goto_branch current o d = m.handoff_spec o d := by
  unfold Menu.submenu_goto_branch Menu.handoff_spec
  cases hargmin : pyArgmin (m.submenus.map (fun s => s.distance_from o d)) with
  | none => rfl
  | some mi =>
      simp only [Option.bind_eq_bind, Option.some_bind]
      by_cases hmn : mi = m.selected_submenu
      · rw [if_pos hmn, if_pos hmn]
      · rw [if_neg hmn, if_neg hmn, hcur]
        simp only [Option.bind_eq_bind, Option.some_bind]
        cases hrem : current.capture_remove d with
        | none => rfl
        | some cur1 =>
            simp only [Option.bind_eq_bind, Option.some_bind]
            rw [List.getElem?_set_ne (fun hh => hmn hh.symm)]

/-- C4: Container-level handoff semantics.  For every Menu with a selected
group index in range and every valid direction, `Menu.handle_submenu_goto`
behaves exactly as the spec-side description `Menu.handoff_spec`: it picks the
index minimizing `Submenu.distance_from` over ALL groups including the active
one; if the active group wins it returns failure and changes no state,
otherwise it removes focus from the active group (`Submenu._capture_remove`),
switches `selected_submenu` to the winner, calls the winner's `_capture_take`
(which delegates to `find_first`-based entry) and returns success. -/
theorem handle_submenu_goto_refines_spec (m : Menu) (o : Point) (d : ℤ)
    (hd : validDir d) (hn : m.selected_submenu < m.submenus.length) :
    Menu.handle_submenu_goto m o d = Menu.handoff_spec m o d := by
  have hget : m.submenus[m.selected_submenu]? =
      some (m.submenus.get ⟨m.selected_submenu, hn⟩) := by
    rw [List.getElem?_eq_getElem hn]
    rfl
  unfold Menu.handle_submenu_goto
  rw [hget]
  simp only [Option.bind_eq_bind, Option.some_bind]
  rcases hd with h | h | h | h <;> subst h
  · rw [if_pos rfl]
    exact submenu_goto_branch_eq_spec m o 0 _ hget
  · rw [if_neg (show ¬(1 : ℤ) = 0 by norm_num), if_pos rfl]
    exact submenu_goto_branch_eq_spec m o 1 _ hget
  · rw [if_neg (show ¬(2 : ℤ) = 0 by norm_num),
      if_neg (show ¬(2 : ℤ) = 1 by norm_num), if_pos rfl]
    exact submenu_goto_branch_eq_spec m o 2 _ hget
  · rw [if_neg (show ¬(3 : ℤ) = 0 by norm_num),
      if_neg (show ¬(3 : ℤ) = 1 by norm_num),
      if_neg (show ¬(3 : ℤ) = 2 by norm_num), if_pos rfl]
    exact submenu_goto_branch_eq_spec m o 3 _ hget

/-- Witness for C4: the handoff from Group A's widget in the two-Group layout
agrees with the spec-side description. -/
theorem handle_submenu_goto_refines_spec_witness :
    Menu.handle_submenu_goto menuAB (0, 9) 1 = Menu.handoff_spec menuAB (0, 9) 1 :=
  handle_submenu_goto_refines_spec menuAB (0, 9) 1 (Or.inr (Or.inl rfl))
    (by decide)

/-- C5 counterexample: in the two-Group scenario the SECOND Right press does
not make the Container handoff fail — it succeeds (returns `true`) and moves
focus back to Group A's widget, because Group A's behind-zone perimeter
distance ties the active group's inside sentinel at `4 * MAX_DELTA²` and the
lowest index wins; focus does NOT remain on Group B's widget. -/
theorem two_group_round_trip_cex :
    ((do
        let m2 ← Submenu.handle_kcd_goto menuAB (0, 9) 1
        Menu.handle_submenu_goto m2 (0, 29) 1).map
          (fun r : Menu × Bool => (r.2, r.1.selected_submenu)) = some (true, 0)) ∧
    ((do
        let m2 ← Submenu.handle_kcd_goto menuAB (0, 9) 1
        Submenu.handle_kcd_goto m2 (0, 29) 1).map
          (fun m1 : Menu => (m1.selected_submenu, m1.submenus.map Submenu.selected)) =
      some (0, [0, -1])) :=
  ⟨by decide, by decide⟩

/-- C5 (amended): pressing Right from Group A's widget moves focus to Group
B's widget (the first half of the scenario holds); but pressing Right again
does not fail: both groups score exactly `4 * MAX_DELTA²` from Group B's
widget (Group A by behind-zone perimeter distance, Group B by the inside
sentinel), the tie resolves to the lowest index, the handoff succeeds and
focus returns to Group A's widget. -/
theorem two_group_round_trip :
    ((Submenu.handle_kcd_goto menuAB (0, 9) 1).map
        (fun m1 : Menu => (m1.selected_submenu, m1.submenus.map Submenu.selected)) =
      some (1, [-1, 0])) ∧
    groupA.distance_from (0, 29) 1 = some (4 * (MAX_DELTA * MAX_DELTA)) ∧
    groupB.distance_from (0, 29) 1 = some (4 * (MAX_DELTA * MAX_DELTA)) ∧
    ((do
        let m2 ← Submenu.handle_kcd_goto menuAB (0, 9) 1
        Submenu.handle_kcd_goto m2 (0, 29) 1).map
          (fun m1 : Menu => (m1.selected_submenu, m1.submenus.map Submenu.selected)) =
      some (0, [0, -1])) :=
  ⟨by decide, by decide, by decide, by decide⟩

/-- C6 counterexample: adding a widget at the out-of-range group index 2 to an
empty Menu raises `ValueError` (the `Except.error`), but the Menu's group list
is NOT the same as before the call: a new Group containing the widget was
appended (at index 0) before the out-of-range check fired. -/
theorem add_out_of_range_cex :
    Menu.add_key_capture_drawable menuEmpty widgetA 2 =
      Except.error menuAfterBadAdd ∧
    menuAfterBadAdd.submenus.length = 1 ∧
    menuAfterBadAdd.submenus.map Submenu.kcds = [[widgetA]] ∧
    menuEmpty.submenus.length = 0 :=
  ⟨rfl, by decide, by decide, rfl⟩

/-- C6 (amended): `add_key_capture_drawable` with `submenu` equal to the
current group count creates exactly one new Group at that index containing the
widget; with `submenu` strictly greater it still appends that new Group
containing the widget and only then raises `ValueError`, so the group list
gains one Group rather than staying unchanged. -/
theorem add_key_capture_drawable_spec (m : Menu) (kcd : KeyCaptureDrawable)
    (k : ℕ) :
    (k = m.submenus.length →
      Menu.add_key_capture_drawable m kcd k =
        Except.ok
          { m with submenus := m.submenus ++ [({} : Submenu).add kcd] }) ∧
    (m.submenus.length < k →
      Menu.add_key_capture_drawable m kcd k =
        Except.error
          { m with submenus := m.submenus ++ [({} : Submenu).add kcd] }) ∧
    (({} : Submenu).add kcd).kcds = [kcd] := by
  refine ⟨?_, ?_, rfl⟩
  · intro hk
    subst hk
    unfold Menu.add_key_capture_drawable
    rw [List.getElem?_eq_none le_rfl]
    dsimp only
    rw [if_neg (by simp)]
  · intro hk
    unfold Menu.add_key_capture_drawable
    rw [List.getElem?_eq_none (by omega)]
    dsimp only
    rw [if_pos (by simp; omega)]

/-- Witness for C6 (amended): adding at the next sequential index 0 of the
empty Menu succeeds; adding at index 2 raises after appending. -/
theorem add_key_capture_drawable_spec_witness :
    Menu.add_key_capture_drawable menuEmpty widgetA 0 =
      Except.ok
        { menuEmpty with
          submenus := menuEmpty.submenus ++ [({} : Submenu).add widgetA] } ∧
    Menu.add_key_capture_drawable menuEmpty widgetA 2 =
      Except.error
        { menuEmpty with
          submenus := menuEmpty.submenus ++ [({} : Submenu).add widgetA] } :=
  ⟨(add_key_capture_drawable_spec menuEmpty widgetA 0).1 (by decide),
   (add_key_capture_drawable_spec menuEmpty widgetA 2).2.1 (by decide)⟩

/-- C7 counterexample: with the invalid direction 5, `Drawable.distance` does
NOT raise when origin and candidate coincide (the self test precedes direction
validation and returns `MAX_DELTA²`), and `Menu.handle_submenu_goto` does not
raise either — its `if`/`elif` chain simply falls through, returning a falsy
value with no state change. -/
theorem invalid_direction_cex :
    Drawable.distance (0, 0) (0, 0) 5 = some (MAX_DELTA * MAX_DELTA) ∧
    Menu.handle_submenu_goto menuAB (0, 9) 5 = some (menuAB, false) :=
  ⟨by decide, by decide⟩

/-- C7 (amended): for a direction outside {0,1,2,3}: `Drawable.distance`
raises `ValueError` for DISTINCT points but returns `MAX_DELTA²` without
validating the direction when origin equals the candidate;
`Submenu._distance_first_point_to_point` always raises;
`Menu.handle_submenu_goto` never raises — it falls off its `if`/`elif` chain
(returning Python `None`, falsy) with no state change; and
`Submenu.handle_kcd_goto`, invoked with a member selected (index in range),
raises exactly when some member's hitbox does not contain the origin — only
then does the member-distance computation call `Drawable.distance` with the
invalid direction — while if every member hitbox contains the origin all
member distances are the inside sentinel, no `Drawable.distance` call occurs,
and the method falls through its direction chain silently with no state
change.  (With no member selected it raises the selection `ValueError` before
any distance computation, the behaviour of claim C9.) -/
theorem invalid_direction_behavior (d : ℤ) (hd : ¬validDir d) :
    (∀ o p : Point, ¬(o.2 = p.2 ∧ o.1 = p.1) →
      Drawable.distance o p d = none) ∧
    (∀ o p : Point, Submenu.distance_first_point_to_point o p d = none) ∧
    (∀ o : Point, Drawable.distance o o d = some (MAX_DELTA * MAX_DELTA)) ∧
    (∀ (m : Menu) (o : Point) (current : Submenu),
      m.submenus[m.selected_submenu]? = some current →
      Menu.handle_submenu_goto m o d = some (m, false)) ∧
    (∀ (m : Menu) (o : Point) (s : Submenu),
      m.submenus[m.selected_submenu]? = some s →
      0 ≤ s.selected → s.selected < (s.kcds.length : ℤ) →
      ((∀ k ∈ s.kcds, k.hitbox.is_inside o) →
        Submenu.handle_kcd_goto m o d = some m) ∧
      (∀ k0 ∈ s.kcds, ¬k0.hitbox.is_inside o →
        Submenu.handle_kcd_goto m o d = none)) := by
  have h0 : ¬d = 0 ∧ ¬d = 1 ∧ ¬d = 2 ∧ ¬d = 3 := by
    unfold validDir at hd
    push_neg at hd
    exact hd
  refine ⟨?_, ?_, ?_, ?_, ?_⟩
  · intro o p hne
    exact distance_invalid o p d hd hne
  · intro o p
    unfold Submenu.distance_first_point_to_point
    dsimp only
    rw [if_neg h0.1, if_neg h0.2.1, if_neg h0.2.2.1, if_neg h0.2.2.2]
  · intro o
    exact distance_self_cond o o d ⟨rfl, rfl⟩
  · intro m o current hcur
    unfold Menu.handle_submenu_goto
    rw [hcur]
    simp only [Option.bind_eq_bind, Option.some_bind]
    rw [if_neg h0.1, if_neg h0.2.1, if_neg h0.2.2.1, if_neg h0.2.2.2]
  · intro m o s hs hsel0 hsel1
    exact ⟨fun hall => kcd_goto_invalid_inside m o d s hd hs hsel0 hsel1 hall,
      fun k0 hk0 hout =>
        kcd_goto_invalid_raises m o d s hd hs hsel0 hsel1 k0 hk0 hout⟩

/-- Witness for C7 (amended), at direction 5 on the two-Group layout: the
distance functions, the Container-level fall-through, the silent
`handle_kcd_goto` fall-through from origin `(0,9)` (inside every member of the
active Group) and the raising `handle_kcd_goto` from origin `(5,5)` (outside
the active Group's widget). -/
theorem invalid_direction_behavior_witness :
    Drawable.distance (0, 0) (2, 3) 5 = none ∧
    Submenu.distance_first_point_to_point (0, 0) (0, 0) 5 = none ∧
    Drawable.distance (4, 7) (4, 7) 5 = some (MAX_DELTA * MAX_DELTA) ∧
    Menu.handle_submenu_goto menuAB (0, 9) 5 = some (menuAB, false) ∧
    Submenu.handle_kcd_goto menuAB (0, 9) 5 = some menuAB ∧
    Submenu.handle_kcd_goto menuAB (5, 5) 5 = none :=
  ⟨(invalid_direction_behavior 5 (by decide)).1 (0, 0) (2, 3) (by decide),
   (invalid_direction_behavior 5 (by decide)).2.1 (0, 0) (0, 0),
   (invalid_direction_behavior 5 (by decide)).2.2.1 (4, 7),
   (invalid_direction_behavior 5 (by decide)).2.2.2.1 menuAB (0, 9) groupA
     (by decide),
   ((invalid_direction_behavior 5 (by decide)).2.2.2.2 menuAB (0, 9) groupA
     (by decide) (by decide) (by decide)).1 (by decide),
   ((invalid_direction_behavior 5 (by decide)).2.2.2.2 menuAB (5, 5) groupA
     (by decide) (by decide) (by decide)).2 widgetA (by decide) (by decide)⟩

/-- C8: Deterministic lowest-index tie-break.  Both member-ranking searches —
`Submenu.find_first` (the first-entry metric) and the `min` over
`distance_from` taken in `Submenu.handle_kcd_goto` — are pure functions of the
member hitboxes, origin and direction (so repeated calls agree), and the index
they return attains the minimal key with the lowest index among all members
attaining it (`IsLeastArgmin`). -/
theorem lowest_index_tie_break (s : Submenu) (p : Point) (d : ℤ)
    (hd : validDir d) (hne : s.kcds ≠ []) :
    (∃ j vals, s.find_first p d = some j ∧
      s.kcds.map (fun k => Submenu.distance_first_kcd k p d) = vals.map some ∧
      IsLeastArgmin vals j) ∧
    (∃ j vals,
      pyArgmin (s.kcds.map (fun k => k.distance_from p d)) = some j ∧
      s.kcds.map (fun k => k.distance_from p d) = vals.map some ∧
      IsLeastArgmin vals j) := by
  constructor
  · have hkeys : ∀ o1 ∈ s.kcds.map
        (fun k => Submenu.distance_first_kcd k p d), o1.isSome := by
      intro o1 ho1
      obtain ⟨k, _, hk⟩ := List.mem_map.mp ho1
      obtain ⟨v, hv⟩ := distance_first_kcd_isSome k p d hd
      rw [← hk, hv]
      rfl
    have hkne : s.kcds.map (fun k => Submenu.distance_first_kcd k p d) ≠ []
        := by
      intro h0
      exact hne (List.map_eq_nil_iff.mp h0)
    obtain ⟨vals, j, hmap, hargmin, hla⟩ := pyArgmin_spec _ hkne hkeys
    exact ⟨j, vals, hargmin, hmap, hla⟩
  · have hkeys : ∀ o1 ∈ s.kcds.map (fun k => k.distance_from p d),
        o1.isSome := by
      intro o1 ho1
      obtain ⟨k, _, hk⟩ := List.mem_map.mp ho1
      obtain ⟨v, hv⟩ := kcd_distance_from_isSome k p d hd
      rw [← hk, hv]
      rfl
    have hkne : s.kcds.map (fun k => k.distance_from p d) ≠ [] := by
      intro h0
      exact hne (List.map_eq_nil_iff.mp h0)
    obtain ⟨vals, j, hmap, hargmin, hla⟩ := pyArgmin_spec _ hkne hkeys
    exact ⟨j, vals, hargmin, hmap, hla⟩

/-- Witness for C8: the two-member Group, ranked from `(0,0)` going Down. -/
theorem lowest_index_tie_break_witness :
    (∃ j vals, groupC.find_first (0, 0) 0 = some j ∧
      groupC.kcds.map (fun k => Submenu.distance_first_kcd k (0, 0) 0) =
        vals.map some ∧
      IsLeastArgmin vals j) ∧
    (∃ j vals,
      pyArgmin (groupC.kcds.map (fun k => k.distance_from (0, 0) 0)) =
        some j ∧
      groupC.kcds.map (fun k => k.distance_from (0, 0) 0) = vals.map some ∧
      IsLeastArgmin vals j) :=
  lowest_index_tie_break groupC (0, 0) 0 (Or.inl rfl) (by decide)

/-- C9: Implicit precondition on group escalation.  When the submenu that
currently owns the key capture has selection `-1`, `Submenu.handle_kcd_goto`
raises `ValueError` (modelled `none`) before reading any member, whatever the
origin and direction. -/
theorem kcd_goto_requires_selection (m : Menu) (o : Point) (d : ℤ)
    (s : Submenu) (hs : m.submenus[m.selected_submenu]? = some s)
    (hsel : s.selected = -1) :
    Submenu.handle_kcd_goto m o d = none := by
  unfold Submenu.handle_kcd_goto
  dsimp only
  rw [hs]
  simp only [Option.bind_eq_bind, Option.some_bind]
  rw [if_pos hsel]

/-- Witness for C9: a Container whose single Group has selection `-1`. -/
theorem kcd_goto_requires_selection_witness :
    Submenu.handle_kcd_goto menuDeselected (0, 0) 0 = none :=
  kcd_goto_requires_selection menuDeselected (0, 0) 0 groupB (by decide) rfl

/-- C10: `Submenu._capture_remove` on an already-deselected Group.  With
selection `-1` and a non-empty member list, Python negative indexing forwards
the member-level `capture_remove` to the LAST member (index `len - 1`), the
selection stays `-1`, and no exception is raised; on an empty member list the
same call raises `IndexError` (modelled `none`). -/
theorem capture_remove_deselected (s : Submenu) (d : ℤ) :
    (s.kcds ≠ [] → s.selected = -1 →
      ∃ k, s.kcds[s.kcds.length - 1]? = some k ∧
        s.capture_remove d = some
          { s with
            kcds := s.kcds.set (s.kcds.length - 1) (k.capture_remove d),
            selected := -1 }) ∧
    (s.kcds = [] → s.capture_remove d = none) := by
  constructor
  · intro hne hsel
    have hlen : 1 ≤ s.kcds.length := List.length_pos.mpr hne
    have hidx := pyIdx_neg_one s.kcds.length hlen
    have hl : s.kcds.length - 1 < s.kcds.length := by omega
    refine ⟨s.kcds.get ⟨s.kcds.length - 1, hl⟩, ?_, ?_⟩
    · rw [List.getElem?_eq_getElem hl]
      rfl
    · unfold Submenu.capture_remove
      rw [hsel, hidx]
      simp only [Option.bind_eq_bind, Option.some_bind]
      rw [List.getElem?_eq_getElem hl]
      simp only [Option.bind_eq_bind, Option.some_bind]
      rfl
  · intro h0
    have hlen0 : s.kcds.length = 0 := by rw [h0]; rfl
    have hpy : pyIdx s.kcds.length s.selected = none := by
      rw [hlen0]
      unfold pyIdx
      dsimp only
      split_ifs with h1 h2 h3 <;> first | rfl | omega
    unfold Submenu.capture_remove
    rw [hpy]
    rfl

/-- Witness for C10: the two-member deselected Group `groupC`, and the same
Group emptied. -/
theorem capture_remove_deselected_witness :
    (∃ k, groupC.kcds[groupC.kcds.length - 1]? = some k ∧
      groupC.capture_remove 0 = some
        { groupC with
          kcds := groupC.kcds.set (groupC.kcds.length - 1)
            (k.capture_remove 0),
          selected := -1 }) ∧
    Submenu.capture_remove { groupC with kcds := [] } 0 = none :=
  ⟨(capture_remove_deselected groupC 0).1 (by decide) rfl,
   (capture_remove_deselected { groupC with kcds := [] } 0).2 rfl⟩
